import Mathlib

/-!
# go-lfile: advisory file locks behind one contract

A shallow embedding of the package `lfile` (`lfile.go`, `lfile_unix.go`,
`lfile_windows.go`).  Every driver function forwards a request to the
operating system and maps the answer to a Go `error`.  A driver function is
embedded as a value of `Prog`: the tree of native calls it issues, each with
the continuation that consumes the native answer.  A `Prog` can be inspected
(which request is issued, what is returned for each possible answer) and it
can be run against a model of the operating system.
-/

set_option autoImplicit false

namespace LFile

/-! ## Go values -/

/-- A value of `syscall.Errno` (an unsigned machine word). -/
abbrev Errno := Nat

/-- Error values produced by the standard library (`syscall`, `os`): either a
`syscall.Errno` or an error of some other dynamic type, kept by its text. -/
inductive SysError where
  | errno (e : Errno)
  | other (text : String)
  deriving DecidableEq, Repr

/-- Non-nil values of the Go `error` interface that the package can return.
`errorString pkgLevel text` is the pointer made by `errors.New(text)`;
`pkgLevel` tells the one allocation made when the package is initialised
(the variable `LOCK_CONFLICT`) from the allocations made inside a call, which
are never pointer-equal to it.  `sys e` is a standard-library error passed
through unchanged.  The nil error is `Option.none`. -/
inductive GoError where
  | errorString (pkgLevel : Bool) (text : String)
  | sys (e : SysError)
  deriving DecidableEq, Repr

/-- Value of `errors.New(text)` evaluated inside a function call. -/
def errors_New (text : String) : GoError := GoError.errorString false text

/-- The method `Error()` of an error value; `errnoText` is
`syscall.Errno.Error`, whose message table is not part of the package. -/
def GoError.Error (errnoText : Errno → String) : GoError → String
  | GoError.errorString _ t => t
  | GoError.sys (SysError.errno e) => errnoText e
  | GoError.sys (SysError.other t) => t

/-- The variable `LOCK_CONFLICT = errors.New("File already locked")`. -/
def LOCK_CONFLICT : GoError := GoError.errorString true "File already locked"

/-- The type `LockType int`. -/
abbrev LockType := Int

/-- Constant `FLOCK LockType = 0`. -/
def FLOCK : LockType := 0

/-- Constant `FCNTL LockType = 1`. -/
def FCNTL : LockType := 1

/-- The part of `*os.File` the package uses: the descriptor returned by
`Fd()` and the name returned by `Name()`. -/
structure OsFile where
  fd : Nat
  name : String
  deriving DecidableEq, Repr

/-- The struct `LockableFile`. -/
structure LockableFile where
  File : OsFile
  blocking : Bool
  unixLockType : LockType
  deriving DecidableEq, Repr

/-- The promoted method `Fd()` of the embedded file.  The file is taken to
be valid while a driver call runs, so the method is a field read. -/
def LockableFile.Fd (lf : LockableFile) : Nat := lf.File.fd

/-- The promoted method `Name()` of the embedded file. -/
def LockableFile.Name (lf : LockableFile) : String := lf.File.name

/-! ## Native calls -/

/-- The struct `syscall.Flock_t` (the fields the package sets; `Typ` is the
field `Type`). -/
structure Flock_t where
  Typ : Nat
  Whence : Nat
  Start : Nat
  Len : Nat
  deriving DecidableEq, Repr

/-- The struct `syscall.Overlapped`. -/
structure Overlapped where
  Internal : Nat
  InternalHigh : Nat
  Offset : Nat
  OffsetHigh : Nat
  HEvent : Nat
  deriving DecidableEq, Repr

/-- The zero value of `syscall.Overlapped` (`var lpOverlapped syscall.Overlapped`). -/
def Overlapped.zero : Overlapped :=
  { Internal := 0, InternalHigh := 0, Offset := 0, OffsetHigh := 0, HEvent := 0 }

/-- The three results of `(*syscall.LazyProc).Call`. -/
structure ProcResult where
  r1 : Nat
  r2 : Nat
  lastErr : Errno
  deriving DecidableEq, Repr

/-- The locking, unlocking and closing calls the package makes outside
itself, with their arguments in the order of the native signature. -/
inductive Request where
  | Flock (fd : Nat) (how : Nat)
  | FcntlFlock (fd : Nat) (cmd : Nat) (lk : Flock_t)
  | LockFileEx (hFile dwFlags dwReserved nNumberOfBytesToLockLow
      nNumberOfBytesToLockHigh : Nat) (lpOverlapped : Overlapped)
  | UnlockFileEx (hFile dwReserved nNumberOfBytesToUnlockLow
      nNumberOfBytesToUnlockHigh : Nat) (lpOverlapped : Overlapped)
  | Close (fd : Nat)
  deriving DecidableEq, Repr

/-- The type of the answer to each call. -/
def Response : Request → Type
  | Request.Flock _ _ => Option SysError
  | Request.FcntlFlock _ _ _ => Option SysError
  | Request.LockFileEx _ _ _ _ _ _ => ProcResult
  | Request.UnlockFileEx _ _ _ _ _ => ProcResult
  | Request.Close _ => Option SysError

/-- A function body as the tree of its native calls: it returns a value, or
it ends the process through `log.Fatal`, or it issues a call and continues
with the answer. -/
inductive Prog (α : Type) where
  | ret (a : α)
  | fatal (msg : String)
  | call (r : Request) (k : Response r → Prog α)

/-- How a run of a function ends. -/
inductive Outcome (α : Type) where
  | returned (a : α)
  | exited (msg : String)
  deriving DecidableEq, Repr

/-- An operating system: a state and, for every call, its answer and the
next state; `none` when the call does not return in that state, the calling
thread staying suspended. -/
structure OS (σ : Type) where
  handle : (r : Request) → σ → Option (Response r × σ)

/-- Runs a function body against an operating system; `none` when the body
is suspended inside a native call. -/
def Prog.run {σ α : Type} (os : OS σ) : Prog α → σ → Option (Outcome α × σ)
  | Prog.ret a, s => some (Outcome.returned a, s)
  | Prog.fatal m, s => some (Outcome.exited m, s)
  | Prog.call r k, s =>
    match os.handle r s with
    | none => none
    | some (x, s1) => Prog.run os (k x) s1

/-- The calls a function body issues, in order, when the answers are given
by `answer`. -/
def Prog.requests {α : Type} (answer : (r : Request) → Response r) : Prog α → List Request
  | Prog.ret _ => []
  | Prog.fatal _ => []
  | Prog.call r k => r :: Prog.requests answer (k (answer r))

/-- What a function body does when the answers are given by `answer`. -/
def Prog.result {α : Type} (answer : (r : Request) → Response r) : Prog α → Outcome α
  | Prog.ret a => Outcome.returned a
  | Prog.fatal m => Outcome.exited m
  | Prog.call r k => Prog.result answer (k (answer r))

/-- Sequencing of function bodies. -/
def Prog.bind {α β : Type} : Prog α → (α → Prog β) → Prog β
  | Prog.ret a, f => f a
  | Prog.fatal m, _ => Prog.fatal m
  | Prog.call r k, f => Prog.call r (fun x => Prog.bind (k x) f)

/-! ## `lfile.go` -/

/-- Method `EnableBlocking`. -/
def EnableBlocking (lf : LockableFile) : LockableFile := { lf with blocking := true }

/-- Method `DisableBlocking`. -/
def DisableBlocking (lf : LockableFile) : LockableFile := { lf with blocking := false }

/-- Method `UnlockAndClose`; `Unlock` is the method of the driver selected
at build time. -/
def UnlockAndClose (Unlock : LockableFile → Prog (Option GoError)) (lf : LockableFile) :
    Prog (Option GoError) :=
  Prog.bind (Unlock lf) fun err =>
    if err ≠ none then Prog.ret err
    else Prog.call (Request.Close lf.Fd) fun (cerr : Option SysError) =>
      Prog.ret (cerr.map GoError.sys)

/-! ## `lfile_unix.go` -/

/-- The constants of packages `syscall` and `io` used by the POSIX driver;
their values depend on the target platform and are not part of the package. -/
structure SyscallConsts where
  SeekStart : Nat
  F_SETLK : Nat
  F_SETLKW : Nat
  F_RDLCK : Nat
  F_WRLCK : Nat
  F_UNLCK : Nat
  LOCK_SH : Nat
  LOCK_EX : Nat
  LOCK_NB : Nat
  LOCK_UN : Nat
  EACCES : Errno
  EAGAIN : Errno
  EWOULDBLOCK : Errno
  deriving DecidableEq, Repr

/-- The values of the constants on linux/amd64. -/
def linux : SyscallConsts :=
  { SeekStart := 0, F_SETLK := 6, F_SETLKW := 7, F_RDLCK := 0, F_WRLCK := 1, F_UNLCK := 2,
    LOCK_SH := 1, LOCK_EX := 2, LOCK_NB := 4, LOCK_UN := 8,
    EACCES := 13, EAGAIN := 11, EWOULDBLOCK := 11 }

/-- The test `errno, ok := err.(syscall.Errno); ok && errno == target`. -/
def isErrno (err : SysError) (target : Errno) : Bool :=
  match err with
  | SysError.errno e => e == target
  | SysError.other _ => false

namespace Unix

/-- Method `UseFCNTL`. -/
def UseFCNTL (lf : LockableFile) : LockableFile := { lf with unixLockType := FCNTL }

/-- Method `UseFLOCK`. -/
def UseFLOCK (lf : LockableFile) : LockableFile := { lf with unixLockType := FLOCK }

/-- Function `New`. -/
def New (file : OsFile) : LockableFile :=
  let lfile : LockableFile := { File := file, blocking := true, unixLockType := 0 }
  UseFLOCK lfile

/-- Method `lock`. -/
def lock (c : SyscallConsts) (lf : LockableFile) (exclusive : Bool) : Prog (Option GoError) :=
  let fd := lf.Fd
  if lf.unixLockType = FCNTL then
    let cmd := c.F_SETLK
    let cmd := if lf.blocking then c.F_SETLKW else cmd
    let l_type := c.F_RDLCK
    let l_type := if exclusive then c.F_WRLCK else l_type
    let flock : Flock_t := { Typ := l_type, Whence := c.SeekStart, Start := 0, Len := 0 }
    Prog.call (Request.FcntlFlock fd cmd flock) fun (err : Option SysError) =>
      match err with
      | some e =>
        if isErrno e c.EACCES || isErrno e c.EAGAIN then Prog.ret (some LOCK_CONFLICT)
        else Prog.ret (some (GoError.sys e))
      | none => Prog.ret none
  else if lf.unixLockType = FLOCK then
    let operation := c.LOCK_SH
    let operation := if exclusive then c.LOCK_EX else operation
    let operation := if !lf.blocking then operation ||| c.LOCK_NB else operation
    Prog.call (Request.Flock fd operation) fun (err : Option SysError) =>
      match err with
      | some e =>
        if isErrno e c.EWOULDBLOCK then Prog.ret (some LOCK_CONFLICT)
        else Prog.ret (some (GoError.sys e))
      | none => Prog.ret none
  else Prog.fatal "Unrecognized lock type."

/-- Method `RLock`. -/
def RLock (c : SyscallConsts) (lf : LockableFile) : Prog (Option GoError) := lock c lf false

/-- Method `RWLock`. -/
def RWLock (c : SyscallConsts) (lf : LockableFile) : Prog (Option GoError) := lock c lf true

/-- Method `Unlock`. -/
def Unlock (c : SyscallConsts) (lfile : LockableFile) : Prog (Option GoError) :=
  let fd := lfile.Fd
  if lfile.unixLockType = FCNTL then
    let flock : Flock_t := { Typ := c.F_UNLCK, Start := 0, Len := 0, Whence := 0 }
    Prog.call (Request.FcntlFlock fd c.F_SETLKW flock) fun (err : Option SysError) =>
      match err with
      | some e => Prog.ret (some (GoError.sys e))
      | none => Prog.ret none
  else if lfile.unixLockType = FLOCK then
    Prog.call (Request.Flock fd c.LOCK_UN) fun (err : Option SysError) =>
      match err with
      | some e => Prog.ret (some (GoError.sys e))
      | none => Prog.ret none
  else Prog.fatal "Unrecognized lock type."

end Unix

/-! ## `lfile_windows.go` -/

/-- What the Windows driver takes from package `syscall`: the constant
`ERROR_IO_PENDING` and the message table behind `Errno.Error`; neither is
part of the package. -/
structure WinSyscall where
  ERROR_IO_PENDING : Errno
  ErrnoError : Errno → String

/-- The constant as defined by the Windows port of `syscall`, with the
decimal code standing for the message. -/
def windows : WinSyscall :=
  { ERROR_IO_PENDING := 997, ErrnoError := fun e => "errno " ++ toString e }

namespace Windows

/-- Constant `LOCKFILE_FAIL_IMMEDIATELY`. -/
def LOCKFILE_FAIL_IMMEDIATELY : Nat := 0x00000001

/-- Constant `LOCKFILE_EXCLUSIVE_LOCK`. -/
def LOCKFILE_EXCLUSIVE_LOCK : Nat := 0x00000002

/-- Constant `LOCK_CONFLICT_ERRNO`. -/
def LOCK_CONFLICT_ERRNO : Errno := 33

/-- Constant `ALREADY_UNLOCKED_ERRNO`. -/
def ALREADY_UNLOCKED_ERRNO : Errno := 158

/-- Method `UseFCNTL` (not supported: empty body). -/
def UseFCNTL (lf : LockableFile) : LockableFile := lf

/-- Method `UseFLOCK` (not supported: empty body). -/
def UseFLOCK (lf : LockableFile) : LockableFile := lf

/-- Function `New`. -/
def New (file : OsFile) : LockableFile :=
  let lfile : LockableFile := { File := file, blocking := true, unixLockType := 0 }
  UseFLOCK lfile

/-- Method `lock`. -/
def lock (w : WinSyscall) (lf : LockableFile) (exclusive : Bool) :
    Prog (Option GoError) :=
  let dwFlags := 0
  let dwFlags := if exclusive then dwFlags ||| LOCKFILE_EXCLUSIVE_LOCK else dwFlags
  let dwFlags := if !lf.blocking then dwFlags ||| LOCKFILE_FAIL_IMMEDIATELY else dwFlags
  let hFile := lf.Fd
  let lpOverlapped := Overlapped.zero
  Prog.call (Request.LockFileEx hFile dwFlags 0 1 0 lpOverlapped) fun (res : ProcResult) =>
    if res.r1 = 0 then
      if res.lastErr = LOCK_CONFLICT_ERRNO ∨ res.lastErr = w.ERROR_IO_PENDING then
        Prog.ret (some LOCK_CONFLICT)
      else Prog.ret (some (errors_New (w.ErrnoError res.lastErr)))
    else Prog.ret none

/-- Method `RLock`. -/
def RLock (w : WinSyscall) (lf : LockableFile) : Prog (Option GoError) :=
  lock w lf false

/-- Method `RWLock`. -/
def RWLock (w : WinSyscall) (lf : LockableFile) : Prog (Option GoError) :=
  lock w lf true

/-- Method `Unlock`. -/
def Unlock (w : WinSyscall) (lf : LockableFile) : Prog (Option GoError) :=
  let hFile := lf.Fd
  let lpOverlapped := Overlapped.zero
  Prog.call (Request.UnlockFileEx hFile 0 1 0 lpOverlapped) fun (res : ProcResult) =>
    if res.r1 = 0 ∧ res.lastErr ≠ ALREADY_UNLOCKED_ERRNO then
      Prog.ret (some (errors_New (w.ErrnoError res.lastErr)))
    else Prog.ret none

end Windows

/-! ## Reading native answers -/

/-- What a native answer says: the call succeeded, or it failed with an
error.  The POSIX wrappers and `Close` return a nil error on success; the
Windows procedures return zero in `r1` on failure, with the error code in
the last result. -/
inductive NativeStatus where
  | ok
  | failed (e : SysError)
  deriving DecidableEq, Repr

/-- The status carried by the answer to a call. -/
def status : (r : Request) → Response r → NativeStatus
  | Request.Flock _ _, none => NativeStatus.ok
  | Request.Flock _ _, some e => NativeStatus.failed e
  | Request.FcntlFlock _ _ _, none => NativeStatus.ok
  | Request.FcntlFlock _ _ _, some e => NativeStatus.failed e
  | Request.LockFileEx _ _ _ _ _ _, res =>
    if res.r1 = 0 then NativeStatus.failed (SysError.errno res.lastErr) else NativeStatus.ok
  | Request.UnlockFileEx _ _ _ _ _, res =>
    if res.r1 = 0 then NativeStatus.failed (SysError.errno res.lastErr) else NativeStatus.ok
  | Request.Close _, none => NativeStatus.ok
  | Request.Close _, some e => NativeStatus.failed e

/-- The statuses by which each native locking call says that the lock is
held elsewhere: `EWOULDBLOCK` for `flock`, `EAGAIN` or `EACCES` for `fcntl`,
`ERROR_IO_PENDING` or error 33 for `LockFileEx`. -/
def isConflictStatus (c : SyscallConsts) (w : WinSyscall) : Request → SysError → Prop
  | Request.Flock _ _, e => e = SysError.errno c.EWOULDBLOCK
  | Request.FcntlFlock _ _ _, e => e = SysError.errno c.EAGAIN ∨ e = SysError.errno c.EACCES
  | Request.LockFileEx _ _ _ _ _ _, e =>
    e = SysError.errno w.ERROR_IO_PENDING ∨ e = SysError.errno 33
  | Request.UnlockFileEx _ _ _ _ _, _ => False
  | Request.Close _, _ => False

/-- The lock-held-elsewhere statuses can be told apart by computation. -/
instance isConflictStatus.decidable (c : SyscallConsts) (w : WinSyscall) (r : Request)
    (e : SysError) : Decidable (isConflictStatus c w r e) := by
  cases r <;> simp only [isConflictStatus] <;> infer_instance

/-- An operating system in which every locking call finds the lock held
elsewhere (and every unlocking call finds nothing to unlock). -/
def answerBusy : (r : Request) → Response r
  | Request.Flock _ _ => some (SysError.errno 11)
  | Request.FcntlFlock _ _ _ => some (SysError.errno 13)
  | Request.LockFileEx _ _ _ _ _ _ => { r1 := 0, r2 := 0, lastErr := 33 }
  | Request.UnlockFileEx _ _ _ _ _ => { r1 := 0, r2 := 0, lastErr := 158 }
  | Request.Close _ => none

/-- An operating system in which every locking call finds the lock held
elsewhere and says so with the other status of its kind: `EAGAIN` (11) from
`fcntl`, `ERROR_IO_PENDING` (997) from `LockFileEx`. -/
def answerPending : (r : Request) → Response r
  | Request.Flock _ _ => some (SysError.errno 11)
  | Request.FcntlFlock _ _ _ => some (SysError.errno 11)
  | Request.LockFileEx _ _ _ _ _ _ => { r1 := 0, r2 := 0, lastErr := 997 }
  | Request.UnlockFileEx _ _ _ _ _ => { r1 := 0, r2 := 0, lastErr := 158 }
  | Request.Close _ => none

/-- An operating system in which every call fails with the bad-descriptor
error (`EBADF` = 9, `ERROR_INVALID_HANDLE` = 6). -/
def answerBadHandle : (r : Request) → Response r
  | Request.Flock _ _ => some (SysError.errno 9)
  | Request.FcntlFlock _ _ _ => some (SysError.errno 9)
  | Request.LockFileEx _ _ _ _ _ _ => { r1 := 0, r2 := 0, lastErr := 6 }
  | Request.UnlockFileEx _ _ _ _ _ => { r1 := 0, r2 := 0, lastErr := 6 }
  | Request.Close _ => some (SysError.errno 9)

/-- A handle made by `New` on descriptor 3 and switched to non-blocking. -/
def sampleHandle : LockableFile := DisableBlocking (Unix.New { fd := 3, name := "/tmp/a" })

/-! ## The operating system -/

/-- The two kinds of lock. -/
inductive Mode where
  | shared
  | exclusive
  deriving DecidableEq, Repr

/-- Modelled from the spec: the compatibility rule of the kernel lock table,
which is not part of the package ("multiple shared (read) locks may coexist;
an exclusive (write) lock request must wait for (or conflict with, if
non-blocking) all outstanding shared and exclusive locks, and vice versa").
A held lock stands in the way of a request unless both are shared. -/
def Mode.excludes (held requested : Mode) : Bool :=
  held == Mode.exclusive || requested == Mode.exclusive

/-- The kind of lock a request with the given `exclusive` flag asks for. -/
def Mode.ofExclusive (exclusive : Bool) : Mode :=
  if exclusive then Mode.exclusive else Mode.shared

/-- Modelled from the spec: the state of a POSIX kernel as far as one file
is concerned, which is not part of the package.  `opened` are the
descriptors of this process, each from an `open` of its own; `flocks` is the
whole-file advisory lock owned by each descriptor ("lock ownership is
associated with the open handle"); `record` is the byte-range lock owned by
the process on the whole file ("lock ownership under this mechanism is
associated with the process, not the individual handle") and `foreign` are
the whole-file byte-range locks of other processes. -/
structure PosixWorld where
  opened : List Nat
  flocks : Nat → Option Mode
  record : Option Mode
  foreign : List Mode

/-- Some other open descriptor holds a lock that excludes a request of kind
`m` by `fd`. -/
def PosixWorld.busy (s : PosixWorld) (fd : Nat) (m : Mode) : Bool :=
  s.opened.any fun h =>
    h != fd && (match s.flocks h with
      | some held => held.excludes m
      | none => false)

/-- Modelled from the spec: the native `flock` call, which is not part of the
package.  The operation is shared, exclusive or unlock, with the
non-blocking modifier OR-ed in.  Unlock always succeeds ("unlocking a
never-locked handle is a legal no-op").  A lock request that no other
descriptor excludes is granted and replaces what the descriptor held.  An
excluded request fails at once with `EWOULDBLOCK` under the modifier and
otherwise suspends the caller.  Changing the kind of a held lock is not
atomic: the kernel removes what the descriptor held before it looks for an
excluding lock, so a refused request leaves the descriptor without a lock;
the locks of the other descriptors are never touched.  What a suspended
caller holds is not tracked, a suspended body is not run further.  A
descriptor that is not open gives `EBADF` (9), an unknown operation `EINVAL`
(22). -/
def posixFlock (c : SyscallConsts) (s : PosixWorld) (fd how : Nat) :
    Option (Option SysError × PosixWorld) :=
  if fd ∉ s.opened then some (some (SysError.errno 9), s)
  else
    let nonblock := (how &&& c.LOCK_NB) = c.LOCK_NB
    let op := how ^^^ (how &&& c.LOCK_NB)
    if op = c.LOCK_UN then
      some (none, { s with flocks := Function.update s.flocks fd none })
    else if op = c.LOCK_SH ∨ op = c.LOCK_EX then
      let m := if op = c.LOCK_EX then Mode.exclusive else Mode.shared
      if s.busy fd m then
        if nonblock then
          some (some (SysError.errno c.EWOULDBLOCK),
            { s with flocks := Function.update s.flocks fd none })
        else none
      else some (none, { s with flocks := Function.update s.flocks fd (some m) })
    else some (some (SysError.errno 22), s)

/-- Modelled from the spec: the native `fcntl` record-lock call on a
whole-file descriptor, which is not part of the package.  Unlocking always
succeeds ("unlocking an already-unlocked region must return success").  A
read or write lock is granted unless a lock of another process excludes it;
then the immediate-fail command gives `EAGAIN` and the sleeping command
suspends the caller.  Descriptors of the same process never contend. -/
def posixFcntl (c : SyscallConsts) (s : PosixWorld) (fd cmd : Nat) (lk : Flock_t) :
    Option (Option SysError × PosixWorld) :=
  if fd ∉ s.opened then some (some (SysError.errno 9), s)
  else if (cmd ≠ c.F_SETLK ∧ cmd ≠ c.F_SETLKW) ∨ lk.Whence ≠ c.SeekStart ∨ lk.Start ≠ 0 ∨
      lk.Len ≠ 0 then
    some (some (SysError.errno 22), s)
  else if lk.Typ = c.F_UNLCK then some (none, { s with record := none })
  else if lk.Typ = c.F_RDLCK ∨ lk.Typ = c.F_WRLCK then
    let m := if lk.Typ = c.F_WRLCK then Mode.exclusive else Mode.shared
    if s.foreign.any (fun held => held.excludes m) then
      if cmd = c.F_SETLK then some (some (SysError.errno c.EAGAIN), s) else none
    else some (none, { s with record := some m })
  else some (some (SysError.errno 22), s)

/-- Modelled from the spec: `Close` of the standard library, which is not
part of the package.  Closing an open descriptor succeeds and drops the
locks that go with it; on a descriptor that is no longer open it fails ("a
subsequent operation on the same native handle must fail as already
closed"). -/
def posixClose (s : PosixWorld) (fd : Nat) : Option (Option SysError × PosixWorld) :=
  if fd ∈ s.opened then
    some (none, { s with opened := s.opened.filter (fun h => h != fd),
                         flocks := Function.update s.flocks fd none,
                         record := none })
  else some (some (SysError.other "file already closed"), s)

/-- The POSIX operating system; the Windows procedures do not exist there. -/
def posixOS (c : SyscallConsts) : OS PosixWorld where
  handle
    | Request.Flock fd how, s => posixFlock c s fd how
    | Request.FcntlFlock fd cmd lk, s => posixFcntl c s fd cmd lk
    | Request.Close fd, s => posixClose s fd
    | Request.LockFileEx _ _ _ _ _ _, s => some ({ r1 := 0, r2 := 0, lastErr := 120 }, s)
    | Request.UnlockFileEx _ _ _ _ _, s => some ({ r1 := 0, r2 := 0, lastErr := 120 }, s)

/-- A byte range locked through a Windows handle. -/
structure WinLock where
  mode : Mode
  offset : Nat
  length : Nat
  deriving DecidableEq, Repr

/-- Modelled from the spec: the state of a Windows kernel as far as one file
is concerned, which is not part of the package: the open handles, each from
an open of its own, and the byte range each of them has locked. -/
structure WinWorld where
  opened : List Nat
  locks : Nat → Option WinLock

/-- Two byte ranges share a byte. -/
def overlaps (o1 l1 o2 l2 : Nat) : Bool := decide (o1 < o2 + l2) && decide (o2 < o1 + l1)

/-- Some other open handle holds a lock on a byte of the range that excludes
a request of kind `m` by `h`. -/
def WinWorld.busy (s : WinWorld) (h : Nat) (m : Mode) (off len : Nat) : Bool :=
  s.opened.any fun h1 =>
    h1 != h && (match s.locks h1 with
      | some k => overlaps k.offset k.length off len && k.mode.excludes m
      | none => false)

/-- Modelled from the spec: the native `LockFileEx`, which is not part of
the package.  The range starts at the offset held in the overlapped record
and has the length given by the two length words; the flags word carries
the exclusive bit and the fail-immediately bit.  A request that no
other handle excludes is granted; an excluded request fails at once with the
status `busy` under the fail-immediately bit and otherwise suspends the
caller.  A handle that is not open gives `ERROR_INVALID_HANDLE` (6). -/
def winLockFileEx (busy : Errno) (s : WinWorld) (hFile dwFlags low high : Nat)
    (ov : Overlapped) : Option (ProcResult × WinWorld) :=
  if hFile ∉ s.opened then some ({ r1 := 0, r2 := 0, lastErr := 6 }, s)
  else
    let m := if dwFlags &&& 2 = 2 then Mode.exclusive else Mode.shared
    let failNow := dwFlags &&& 1 = 1
    let off := ov.Offset + 2 ^ 32 * ov.OffsetHigh
    let len := low + 2 ^ 32 * high
    if s.busy hFile m off len then
      if failNow then some ({ r1 := 0, r2 := 0, lastErr := busy }, s) else none
    else
      let k : WinLock := { mode := m, offset := off, length := len }
      some ({ r1 := 1, r2 := 0, lastErr := 0 },
        { s with locks := Function.update s.locks hFile (some k) })

/-- Modelled from the spec: the native `UnlockFileEx`, which is not part of
the package.  It releases the range when the handle has it locked and
otherwise fails with the "already unlocked" status (158). -/
def winUnlockFileEx (s : WinWorld) (hFile low high : Nat) (ov : Overlapped) :
    Option (ProcResult × WinWorld) :=
  if hFile ∉ s.opened then some ({ r1 := 0, r2 := 0, lastErr := 6 }, s)
  else
    let off := ov.Offset + 2 ^ 32 * ov.OffsetHigh
    let len := low + 2 ^ 32 * high
    match s.locks hFile with
    | some k =>
      if k.offset = off ∧ k.length = len then
        some ({ r1 := 1, r2 := 0, lastErr := 0 },
          { s with locks := Function.update s.locks hFile none })
      else some ({ r1 := 0, r2 := 0, lastErr := 158 }, s)
    | none => some ({ r1 := 0, r2 := 0, lastErr := 158 }, s)

/-- Modelled from the spec: `Close` of the standard library on Windows,
which is not part of the package; as on POSIX. -/
def winClose (s : WinWorld) (h : Nat) : Option (Option SysError × WinWorld) :=
  if h ∈ s.opened then
    some (none, { s with opened := s.opened.filter (fun h1 => h1 != h),
                         locks := Function.update s.locks h none })
  else some (some (SysError.other "file already closed"), s)

/-- The Windows operating system, with the status `busy` for an excluded
request; the POSIX calls do not exist there. -/
def windowsOS (busy : Errno) : OS WinWorld where
  handle
    | Request.LockFileEx h fl _ lo hi ov, s => winLockFileEx busy s h fl lo hi ov
    | Request.UnlockFileEx h _ lo hi ov, s => winUnlockFileEx s h lo hi ov
    | Request.Close h, s => winClose s h
    | Request.Flock _ _, s => some (some (SysError.errno 38), s)
    | Request.FcntlFlock _ _ _, s => some (some (SysError.errno 38), s)

/-- What the kernel needs of the `flock` constants of a platform: the three
operations differ and the non-blocking modifier is a non-empty set of bits
disjoint from each of them. -/
def SyscallConsts.flockWellFormed (c : SyscallConsts) : Prop :=
  c.LOCK_NB ≠ 0 ∧ c.LOCK_SH &&& c.LOCK_NB = 0 ∧ c.LOCK_EX &&& c.LOCK_NB = 0 ∧
    c.LOCK_UN &&& c.LOCK_NB = 0 ∧ c.LOCK_SH ≠ c.LOCK_EX ∧ c.LOCK_SH ≠ c.LOCK_UN ∧
    c.LOCK_EX ≠ c.LOCK_UN

/-- Well-formedness of the `flock` constants can be checked by computation. -/
instance SyscallConsts.flockWellFormed.decidable (c : SyscallConsts) :
    Decidable c.flockWellFormed := by
  unfold SyscallConsts.flockWellFormed
  infer_instance

/-- Three descriptors opened on the file; 3 and 4 hold shared locks. -/
def twoReaders : PosixWorld :=
  { opened := [3, 4, 5],
    flocks := fun h => if h = 3 ∨ h = 4 then some Mode.shared else none,
    record := none, foreign := [] }

/-- Three handles opened on the file, none holding a lock. -/
def idleWindows : WinWorld := { opened := [3, 4, 5], locks := fun _ => none }

/-- Three descriptors opened on the file; 3 holds an exclusive lock. -/
def oneWriter : PosixWorld :=
  { opened := [3, 4, 5],
    flocks := fun h => if h = 3 then some Mode.exclusive else none,
    record := none, foreign := [] }

/-- The byte range a Windows locking call names: it starts at the offset
held in the overlapped structure (low word, high word) and its length is
given by the low and the high length word. -/
def Request.region : Request → Option (Nat × Nat)
  | Request.LockFileEx _ _ _ lo hi ov =>
    some (ov.Offset + 2 ^ 32 * ov.OffsetHigh, lo + 2 ^ 32 * hi)
  | Request.UnlockFileEx _ _ lo hi ov =>
    some (ov.Offset + 2 ^ 32 * ov.OffsetHigh, lo + 2 ^ 32 * hi)
  | Request.Flock _ _ => none
  | Request.FcntlFlock _ _ _ => none
  | Request.Close _ => none

/-- The largest length two 32-bit length words can name. -/
def maxRegionLength : Nat := (2 ^ 32 - 1) + 2 ^ 32 * (2 ^ 32 - 1)

/-- The policy setters of the public surface. -/
inductive PolicyCall where
  | UseFLOCK
  | UseFCNTL
  | EnableBlocking
  | DisableBlocking
  deriving DecidableEq, Repr

/-- The effect of one policy setter of the POSIX build on a handle. -/
def Unix.applyPolicy (lf : LockableFile) : PolicyCall → LockableFile
  | PolicyCall.UseFLOCK => Unix.UseFLOCK lf
  | PolicyCall.UseFCNTL => Unix.UseFCNTL lf
  | PolicyCall.EnableBlocking => EnableBlocking lf
  | PolicyCall.DisableBlocking => DisableBlocking lf

/-- A handle made by `New` and then configured by a sequence of setters. -/
def Unix.configure (file : OsFile) (calls : List PolicyCall) : LockableFile :=
  calls.foldl Unix.applyPolicy (Unix.New file)

/-- A handle whose mechanism field holds a raw value outside the enum. -/
def rawHandle : LockableFile :=
  { File := { fd := 3, name := "/tmp/a" }, blocking := true, unixLockType := 7 }

/-- Runs function bodies one after the other and collects how each ended;
the run stops at a body that is suspended inside a native call. -/
def Prog.runSeq {σ α : Type} (os : OS σ) : List (Prog α) → σ → List (Option (Outcome α))
  | [], _ => []
  | p :: ps, s =>
    match p.run os s with
    | none => [none]
    | some (o, s1) => some o :: Prog.runSeq os ps s1

/-- Three descriptors opened on the file, none holding a lock. -/
def idlePosix : PosixWorld :=
  { opened := [3, 4, 5], flocks := fun _ => none, record := none, foreign := [] }

/-- The POSIX kernel state in which descriptor `fd` holds `m` and every
other descriptor what it held. -/
def PosixWorld.setFlock (s : PosixWorld) (fd : Nat) (m : Option Mode) : PosixWorld :=
  { s with flocks := Function.update s.flocks fd m }

/-- The Windows kernel state in which handle `h` holds `k` and every other
handle what it held. -/
def WinWorld.setLock (s : WinWorld) (h : Nat) (k : Option WinLock) : WinWorld :=
  { s with locks := Function.update s.locks h k }

/-! ## Two goroutines -/

/-- One step of a goroutine of `TestBlockingLockAndUnlock`: a call into the
package, or a `WriteString` on a file opened for appending. -/
inductive Action where
  | call (p : Prog (Option GoError))
  | write (text : String)

/-- What an observer sees of a step that took place, with the goroutine that
made it (`false` the first, `true` the second): a package call returned, or
a text was appended to the file. -/
inductive Event where
  | returned (second : Bool) (o : Outcome (Option GoError))
  | wrote (second : Bool) (text : String)
  deriving DecidableEq, Repr

/-- Two goroutines running over one operating system and one file: the
kernel state, the content of the file, the steps that took place so far and
the steps each goroutine still has to make. -/
structure Config (σ : Type) where
  kernel : σ
  content : String
  trace : List Event
  first : List Action
  second : List Action

/-- The scheduler lets one goroutine make its next step.  A write appends to
the file.  A package call is run on the kernel; when it is suspended inside
a native call the goroutine makes no progress and nothing changes.  A
goroutine that has finished makes no step. -/
def Config.step {σ : Type} (os : OS σ) (cfg : Config σ) (second : Bool) : Config σ :=
  match (if second then cfg.second else cfg.first) with
  | [] => cfg
  | Action.write t :: rest =>
    { kernel := cfg.kernel, content := cfg.content ++ t,
      trace := cfg.trace ++ [Event.wrote second t],
      first := if second then cfg.first else rest,
      second := if second then rest else cfg.second }
  | Action.call p :: rest =>
    match p.run os cfg.kernel with
    | none => cfg
    | some (o, k) =>
      { kernel := k, content := cfg.content,
        trace := cfg.trace ++ [Event.returned second o],
        first := if second then cfg.first else rest,
        second := if second then rest else cfg.second }

/-- A run of the two goroutines under a schedule, the list of the goroutines
picked in turn. -/
def Config.schedule {σ : Type} (os : OS σ) (cfg : Config σ) (sched : List Bool) : Config σ :=
  sched.foldl (Config.step os) cfg

/-- The two goroutines of `TestBlockingLockAndUnlock` from the moment the
second one is started: the first, which holds the lock through handle `A`,
writes and unlocks; the second locks through handle `B`, writes and
unlocks. -/
def criticalSections {σ : Type} (RWLock Unlock : LockableFile → Prog (Option GoError))
    (A B : LockableFile) (kernel : σ) (content text1 text2 : String) : Config σ :=
  { kernel := kernel, content := content, trace := [],
    first := [Action.write text1, Action.call (Unlock A)],
    second := [Action.call (RWLock B), Action.write text2, Action.call (Unlock B)] }

/-- The steps of the two goroutines in the one order in which they can take
place, each package call returning nil. -/
def criticalTrace (text1 text2 : String) : List Event :=
  [Event.wrote false text1, Event.returned false (Outcome.returned none),
   Event.returned true (Outcome.returned none), Event.wrote true text2,
   Event.returned true (Outcome.returned none)]

/-- The configurations the two goroutines pass through, by the number of
steps made, when the kernel goes through the states `s0` to `s3`. -/
def criticalStage {σ : Type} (RWLock Unlock : LockableFile → Prog (Option GoError))
    (A B : LockableFile) (s0 s1 s2 s3 : σ) (content text1 text2 : String) : Nat → Config σ
  | 0 => criticalSections RWLock Unlock A B s0 content text1 text2
  | 1 =>
    { kernel := s0, content := content ++ text1,
      trace := (criticalTrace text1 text2).take 1,
      first := [Action.call (Unlock A)],
      second := [Action.call (RWLock B), Action.write text2, Action.call (Unlock B)] }
  | 2 =>
    { kernel := s1, content := content ++ text1,
      trace := (criticalTrace text1 text2).take 2,
      first := [],
      second := [Action.call (RWLock B), Action.write text2, Action.call (Unlock B)] }
  | 3 =>
    { kernel := s2, content := content ++ text1,
      trace := (criticalTrace text1 text2).take 3,
      first := [], second := [Action.write text2, Action.call (Unlock B)] }
  | 4 =>
    { kernel := s2, content := content ++ text1 ++ text2,
      trace := (criticalTrace text1 text2).take 4,
      first := [], second := [Action.call (Unlock B)] }
  | _ =>
    { kernel := s3, content := content ++ text1 ++ text2,
      trace := criticalTrace text1 text2,
      first := [], second := [] }

/-! ## Theorems -/

/-- A body that makes one call and then returns issues just that call. -/
theorem Prog.mem_requests_call {α : Type} (answer : (r : Request) → Response r)
    (r0 : Request) (k : Response r0 → Prog α)
    (hk : ∀ x, Prog.requests answer (k x) = []) (r : Request)
    (hr : r ∈ (Prog.call r0 k).requests answer) : r = r0 := by
  simpa [Prog.requests, hk] using hr

/-- The POSIX `lock` maps the lock-held-elsewhere statuses to `LOCK_CONFLICT`. -/
theorem unix_lock_conflict (c : SyscallConsts) (w : WinSyscall) (lf : LockableFile)
    (exclusive : Bool) (answer : (r : Request) → Response r)
    (r : Request) (e : SysError) (hr : r ∈ (Unix.lock c lf exclusive).requests answer)
    (hfail : status r (answer r) = NativeStatus.failed e)
    (hconf : isConflictStatus c w r e) :
    (Unix.lock c lf exclusive).result answer = Outcome.returned (some LOCK_CONFLICT) := by
  unfold Unix.lock at hr ⊢
  by_cases h1 : lf.unixLockType = FCNTL
  · rw [if_pos h1] at hr ⊢
    have hr0 := Prog.mem_requests_call answer _ _
      (by intro x; cases x <;> first | rfl | (dsimp only; split_ifs <;> rfl)) r hr
    subst hr0
    simp only [Prog.result]
    generalize answer (Request.FcntlFlock _ _ _) = x at hfail ⊢
    cases x with
    | none => simp [status] at hfail
    | some e1 =>
      simp only [status, NativeStatus.failed.injEq] at hfail
      subst hfail
      simp only [isConflictStatus] at hconf
      rcases hconf with rfl | rfl <;> simp [isErrno, Prog.result]
  · by_cases h2 : lf.unixLockType = FLOCK
    · rw [if_neg h1, if_pos h2] at hr ⊢
      have hr0 := Prog.mem_requests_call answer _ _
        (by intro x; cases x <;> first | rfl | (dsimp only; split_ifs <;> rfl)) r hr
      subst hr0
      simp only [Prog.result]
      generalize answer (Request.Flock _ _) = x at hfail ⊢
      cases x with
      | none => simp [status] at hfail
      | some e1 =>
        simp only [status, NativeStatus.failed.injEq] at hfail
        subst hfail
        simp only [isConflictStatus] at hconf
        subst hconf
        simp [isErrno, Prog.result]
    · simp [h1, h2, Prog.requests] at hr

/-- The Windows `lock` maps the lock-held-elsewhere statuses to `LOCK_CONFLICT`. -/
theorem windows_lock_conflict (c : SyscallConsts) (w : WinSyscall) (lf : LockableFile)
    (exclusive : Bool) (answer : (r : Request) → Response r)
    (r : Request) (e : SysError) (hr : r ∈ (Windows.lock w lf exclusive).requests answer)
    (hfail : status r (answer r) = NativeStatus.failed e)
    (hconf : isConflictStatus c w r e) :
    (Windows.lock w lf exclusive).result answer = Outcome.returned (some LOCK_CONFLICT) := by
  unfold Windows.lock at hr ⊢
  have hr0 := Prog.mem_requests_call answer _ _
    (by intro x; split_ifs <;> rfl) r hr
  subst hr0
  simp only [Prog.result]
  generalize answer (Request.LockFileEx _ _ _ _ _ _) = x at hfail ⊢
  simp only [status] at hfail
  by_cases h0 : x.r1 = 0
  · simp only [h0, if_true, NativeStatus.failed.injEq] at hfail
    subst hfail
    simp only [isConflictStatus, SysError.errno.injEq] at hconf
    have : x.lastErr = Windows.LOCK_CONFLICT_ERRNO ∨ x.lastErr = w.ERROR_IO_PENDING := by
      rcases hconf with h | h
      · exact Or.inr h
      · exact Or.inl h
    simp [h0, this, Prog.result]
  · simp [h0] at hfail

/-- The type test on a native error succeeds exactly on that errno. -/
theorem isErrno_eq_true_iff (e : SysError) (t : Errno) :
    isErrno e t = true ↔ e = SysError.errno t := by
  cases e <;> simp [isErrno]

/-- A standard-library error is never the package's own sentinel. -/
theorem sys_ne_LOCK_CONFLICT (e : SysError) : GoError.sys e ≠ LOCK_CONFLICT := by
  simp [LOCK_CONFLICT]

/-- An error made inside a call is never the package's own sentinel. -/
theorem errors_New_ne_LOCK_CONFLICT (t : String) : errors_New t ≠ LOCK_CONFLICT := by
  simp [LOCK_CONFLICT, errors_New]

/-- The POSIX `lock` returns any other native error unchanged. -/
theorem unix_lock_propagates (c : SyscallConsts) (w : WinSyscall) (lf : LockableFile)
    (exclusive : Bool) (answer : (r : Request) → Response r)
    (r : Request) (e : SysError) (hr : r ∈ (Unix.lock c lf exclusive).requests answer)
    (hfail : status r (answer r) = NativeStatus.failed e)
    (hconf : ¬ isConflictStatus c w r e) :
    (Unix.lock c lf exclusive).result answer = Outcome.returned (some (GoError.sys e)) := by
  unfold Unix.lock at hr ⊢
  by_cases h1 : lf.unixLockType = FCNTL
  · rw [if_pos h1] at hr ⊢
    have hr0 := Prog.mem_requests_call answer _ _
      (by intro x; cases x <;> first | rfl | (dsimp only; split_ifs <;> rfl)) r hr
    subst hr0
    simp only [Prog.result]
    generalize answer (Request.FcntlFlock _ _ _) = x at hfail ⊢
    cases x with
    | none => simp [status] at hfail
    | some e1 =>
      simp only [status, NativeStatus.failed.injEq] at hfail
      subst hfail
      simp only [isConflictStatus, not_or] at hconf
      have ha : isErrno e1 c.EACCES = false := by
        rw [← Bool.not_eq_true, isErrno_eq_true_iff]; exact hconf.2
      have hb : isErrno e1 c.EAGAIN = false := by
        rw [← Bool.not_eq_true, isErrno_eq_true_iff]; exact hconf.1
      simp [ha, hb, Prog.result]
  · by_cases h2 : lf.unixLockType = FLOCK
    · rw [if_neg h1, if_pos h2] at hr ⊢
      have hr0 := Prog.mem_requests_call answer _ _
        (by intro x; cases x <;> first | rfl | (dsimp only; split_ifs <;> rfl)) r hr
      subst hr0
      simp only [Prog.result]
      generalize answer (Request.Flock _ _) = x at hfail ⊢
      cases x with
      | none => simp [status] at hfail
      | some e1 =>
        simp only [status, NativeStatus.failed.injEq] at hfail
        subst hfail
        simp only [isConflictStatus] at hconf
        have ha : isErrno e1 c.EWOULDBLOCK = false := by
          rw [← Bool.not_eq_true, isErrno_eq_true_iff]; exact hconf
        simp [ha, Prog.result]
    · simp [h1, h2, Prog.requests] at hr

/-- The POSIX `lock` returns nil only after a native call that succeeded. -/
theorem unix_lock_nil (c : SyscallConsts) (lf : LockableFile)
    (exclusive : Bool) (answer : (r : Request) → Response r)
    (hnil : (Unix.lock c lf exclusive).result answer = Outcome.returned none) :
    ∃ r, r ∈ (Unix.lock c lf exclusive).requests answer ∧
      status r (answer r) = NativeStatus.ok := by
  unfold Unix.lock at hnil ⊢
  by_cases h1 : lf.unixLockType = FCNTL
  · rw [if_pos h1] at hnil ⊢
    refine ⟨_, List.mem_cons_self _ _, ?_⟩
    simp only [Prog.result] at hnil
    generalize answer (Request.FcntlFlock _ _ _) = x at hnil ⊢
    cases x with
    | none => rfl
    | some e1 =>
      exfalso
      dsimp only at hnil
      split_ifs at hnil <;> simp [Prog.result, LOCK_CONFLICT] at hnil
  · by_cases h2 : lf.unixLockType = FLOCK
    · rw [if_neg h1, if_pos h2] at hnil ⊢
      refine ⟨_, List.mem_cons_self _ _, ?_⟩
      simp only [Prog.result] at hnil
      generalize answer (Request.Flock _ _) = x at hnil ⊢
      cases x with
      | none => rfl
      | some e1 =>
        exfalso
        dsimp only at hnil
        split_ifs at hnil <;> simp [Prog.result, LOCK_CONFLICT] at hnil
    · simp [h1, h2, Prog.result] at hnil

/-- The POSIX `Unlock` returns every native error unchanged. -/
theorem unix_Unlock_propagates (c : SyscallConsts) (lf : LockableFile)
    (answer : (r : Request) → Response r)
    (r : Request) (e : SysError) (hr : r ∈ (Unix.Unlock c lf).requests answer)
    (hfail : status r (answer r) = NativeStatus.failed e) :
    (Unix.Unlock c lf).result answer = Outcome.returned (some (GoError.sys e)) := by
  unfold Unix.Unlock at hr ⊢
  by_cases h1 : lf.unixLockType = FCNTL
  · rw [if_pos h1] at hr ⊢
    have hr0 := Prog.mem_requests_call answer _ _ (by intro x; cases x <;> rfl) r hr
    subst hr0
    simp only [Prog.result]
    generalize answer (Request.FcntlFlock _ _ _) = x at hfail ⊢
    cases x with
    | none => simp [status] at hfail
    | some e1 =>
      simp only [status, NativeStatus.failed.injEq] at hfail
      subst hfail
      rfl
  · by_cases h2 : lf.unixLockType = FLOCK
    · rw [if_neg h1, if_pos h2] at hr ⊢
      have hr0 := Prog.mem_requests_call answer _ _ (by intro x; cases x <;> rfl) r hr
      subst hr0
      simp only [Prog.result]
      generalize answer (Request.Flock _ _) = x at hfail ⊢
      cases x with
      | none => simp [status] at hfail
      | some e1 =>
        simp only [status, NativeStatus.failed.injEq] at hfail
        subst hfail
        rfl
    · simp [h1, h2, Prog.requests] at hr

/-- The POSIX `Unlock` returns nil only after a native call that succeeded. -/
theorem unix_Unlock_nil (c : SyscallConsts) (lf : LockableFile)
    (answer : (r : Request) → Response r)
    (hnil : (Unix.Unlock c lf).result answer = Outcome.returned none) :
    ∃ r, r ∈ (Unix.Unlock c lf).requests answer ∧ status r (answer r) = NativeStatus.ok := by
  unfold Unix.Unlock at hnil ⊢
  by_cases h1 : lf.unixLockType = FCNTL
  · rw [if_pos h1] at hnil ⊢
    refine ⟨_, List.mem_cons_self _ _, ?_⟩
    simp only [Prog.result] at hnil
    generalize answer (Request.FcntlFlock _ _ _) = x at hnil ⊢
    cases x with
    | none => rfl
    | some e1 => simp [Prog.result] at hnil
  · by_cases h2 : lf.unixLockType = FLOCK
    · rw [if_neg h1, if_pos h2] at hnil ⊢
      refine ⟨_, List.mem_cons_self _ _, ?_⟩
      simp only [Prog.result] at hnil
      generalize answer (Request.Flock _ _) = x at hnil ⊢
      cases x with
      | none => rfl
      | some e1 => simp [Prog.result] at hnil
    · simp [h1, h2, Prog.result] at hnil

/-- The Windows `lock` wraps the text of any other native error. -/
theorem windows_lock_propagates (c : SyscallConsts) (w : WinSyscall) (lf : LockableFile)
    (exclusive : Bool) (answer : (r : Request) → Response r)
    (r : Request) (e : SysError) (hr : r ∈ (Windows.lock w lf exclusive).requests answer)
    (hfail : status r (answer r) = NativeStatus.failed e)
    (hconf : ¬ isConflictStatus c w r e) :
    ∃ n, e = SysError.errno n ∧ (Windows.lock w lf exclusive).result answer
      = Outcome.returned (some (errors_New (w.ErrnoError n))) := by
  unfold Windows.lock at hr ⊢
  have hr0 := Prog.mem_requests_call answer _ _
    (by intro x; split_ifs <;> rfl) r hr
  subst hr0
  simp only [Prog.result]
  generalize answer (Request.LockFileEx _ _ _ _ _ _) = x at hfail ⊢
  simp only [status] at hfail
  by_cases h0 : x.r1 = 0
  · simp only [h0, if_true, NativeStatus.failed.injEq] at hfail
    subst hfail
    simp only [isConflictStatus, SysError.errno.injEq, not_or] at hconf
    have : ¬ (x.lastErr = Windows.LOCK_CONFLICT_ERRNO ∨ x.lastErr = w.ERROR_IO_PENDING) := by
      rintro (h | h)
      · exact hconf.2 h
      · exact hconf.1 h
    exact ⟨x.lastErr, rfl, by simp [h0, this, Prog.result]⟩
  · simp [h0] at hfail

/-- The Windows `lock` returns nil only after a native call that succeeded. -/
theorem windows_lock_nil (w : WinSyscall) (lf : LockableFile)
    (exclusive : Bool) (answer : (r : Request) → Response r)
    (hnil : (Windows.lock w lf exclusive).result answer = Outcome.returned none) :
    ∃ r, r ∈ (Windows.lock w lf exclusive).requests answer ∧
      status r (answer r) = NativeStatus.ok := by
  unfold Windows.lock at hnil ⊢
  refine ⟨_, List.mem_cons_self _ _, ?_⟩
  simp only [Prog.result] at hnil
  generalize answer (Request.LockFileEx _ _ _ _ _ _) = x at hnil ⊢
  simp only [status]
  by_cases h0 : x.r1 = 0
  · exfalso
    rw [if_pos h0] at hnil
    split_ifs at hnil <;> simp [Prog.result, LOCK_CONFLICT, errors_New] at hnil
  · simp [h0]

/-- The Windows `Unlock` wraps the text of any native error but "already
unlocked". -/
theorem windows_Unlock_propagates (w : WinSyscall) (lf : LockableFile)
    (answer : (r : Request) → Response r)
    (r : Request) (e : SysError) (hr : r ∈ (Windows.Unlock w lf).requests answer)
    (hfail : status r (answer r) = NativeStatus.failed e)
    (hne : e ≠ SysError.errno Windows.ALREADY_UNLOCKED_ERRNO) :
    ∃ n, e = SysError.errno n ∧ (Windows.Unlock w lf).result answer
      = Outcome.returned (some (errors_New (w.ErrnoError n))) := by
  unfold Windows.Unlock at hr ⊢
  have hr0 := Prog.mem_requests_call answer _ _
    (by intro x; split_ifs <;> rfl) r hr
  subst hr0
  simp only [Prog.result]
  generalize answer (Request.UnlockFileEx _ _ _ _ _) = x at hfail ⊢
  simp only [status] at hfail
  by_cases h0 : x.r1 = 0
  · simp only [h0, if_true, NativeStatus.failed.injEq] at hfail
    subst hfail
    have : x.lastErr ≠ Windows.ALREADY_UNLOCKED_ERRNO := fun h => hne (by rw [h])
    exact ⟨x.lastErr, rfl, by simp [h0, this, Prog.result]⟩
  · simp [h0] at hfail

/-- The Windows `Unlock` returns nil only after a native call that succeeded
or answered "already unlocked". -/
theorem windows_Unlock_nil (w : WinSyscall) (lf : LockableFile)
    (answer : (r : Request) → Response r)
    (hnil : (Windows.Unlock w lf).result answer = Outcome.returned none) :
    ∃ r, r ∈ (Windows.Unlock w lf).requests answer ∧
      (status r (answer r) = NativeStatus.ok ∨ status r (answer r)
        = NativeStatus.failed (SysError.errno Windows.ALREADY_UNLOCKED_ERRNO)) := by
  unfold Windows.Unlock at hnil ⊢
  refine ⟨_, List.mem_cons_self _ _, ?_⟩
  simp only [Prog.result] at hnil
  generalize answer (Request.UnlockFileEx _ _ _ _ _) = x at hnil ⊢
  simp only [status]
  by_cases h0 : x.r1 = 0
  · by_cases h1 : x.lastErr = Windows.ALREADY_UNLOCKED_ERRNO
    · right; simp [h0, h1]
    · exfalso
      simp [h0, h1, Prog.result] at hnil
  · simp [h0]

/-- OR-ing a modifier in sets all of its bits. -/
theorem or_and_self_right (a b : Nat) : (a ||| b) &&& b = b := by
  apply Nat.eq_of_testBit_eq
  intro i
  simp only [Nat.testBit_and, Nat.testBit_or]
  cases a.testBit i <;> cases b.testBit i <;> rfl

/-- Clearing a modifier that was OR-ed into a disjoint word gives the word back. -/
theorem or_xor_cancel (a b : Nat) (h : a &&& b = 0) : (a ||| b) ^^^ b = a := by
  apply Nat.eq_of_testBit_eq
  intro i
  have hi : (a &&& b).testBit i = false := by rw [h]; exact Nat.zero_testBit i
  simp only [Nat.testBit_and] at hi
  simp only [Nat.testBit_xor, Nat.testBit_or]
  revert hi
  cases a.testBit i <;> cases b.testBit i <;> simp

/-- The two mechanisms differ. -/
theorem FLOCK_ne_FCNTL : FLOCK ≠ FCNTL := by decide

/-- A held lock excludes a request when the request is exclusive or the held
lock is. -/
theorem excludes_ofExclusive (held : Mode) (ex : Bool) :
    held.excludes (Mode.ofExclusive ex) = true ↔ (ex = true ∨ held = Mode.exclusive) := by
  cases held <;> cases ex <;> simp [Mode.excludes, Mode.ofExclusive]

/-- The kernel finds a `flock` request excluded exactly when another open
descriptor holds an incompatible lock. -/
theorem posix_busy_iff (s : PosixWorld) (fd : Nat) (ex : Bool) :
    s.busy fd (Mode.ofExclusive ex) = true ↔
      ∃ h ∈ s.opened, h ≠ fd ∧ ∃ m, s.flocks h = some m ∧ (ex = true ∨ m = Mode.exclusive) := by
  unfold PosixWorld.busy
  rw [List.any_eq_true]
  constructor
  · rintro ⟨h, hmem, hh⟩
    simp only [Bool.and_eq_true, bne_iff_ne, ne_eq] at hh
    refine ⟨h, hmem, hh.1, ?_⟩
    cases hf : s.flocks h with
    | none => simp [hf] at hh
    | some m =>
      simp only [hf] at hh
      exact ⟨m, rfl, (excludes_ofExclusive m ex).1 hh.2⟩
  · rintro ⟨h, hmem, hne, m, hm, hex⟩
    refine ⟨h, hmem, ?_⟩
    simp only [Bool.and_eq_true, bne_iff_ne, ne_eq, hm]
    exact ⟨hne, (excludes_ofExclusive m ex).2 hex⟩

/-- The POSIX `lock` under FLOCK, run on the kernel: a request that another
descriptor excludes suspends a blocking handle and gives `LOCK_CONFLICT` to a
non-blocking one, which is left without a lock; any other request is
granted. -/
theorem unix_flock_run (c : SyscallConsts) (hc : c.flockWellFormed) (s : PosixWorld)
    (lf : LockableFile) (ex : Bool) (hm : lf.unixLockType = FLOCK) (ho : lf.Fd ∈ s.opened) :
    (Unix.lock c lf ex).run (posixOS c) s =
      if s.busy lf.Fd (Mode.ofExclusive ex) then
        if lf.blocking then none
        else some (Outcome.returned (some LOCK_CONFLICT),
          { s with flocks := Function.update s.flocks lf.Fd none })
      else some (Outcome.returned none,
        { s with flocks := Function.update s.flocks lf.Fd (some (Mode.ofExclusive ex)) }) := by
  obtain ⟨hnb, hsh, hex, hun, hse, hsu, heu⟩ := hc
  have h1 : ¬ lf.unixLockType = FCNTL := by rw [hm]; exact FLOCK_ne_FCNTL
  have hnb2 : ¬ (0 = c.LOCK_NB) := fun h0 => hnb h0.symm
  unfold Unix.lock
  rw [if_neg h1, if_pos hm]
  cases hb : lf.blocking
  · simp only [Bool.not_false, if_true, Prog.run, posixOS, posixFlock, ho,
      not_true_eq_false, if_false, or_and_self_right]
    cases ex
    · simp only [Bool.false_eq_true, if_false, or_xor_cancel _ _ hsh, hsu, hse, true_or,
        if_true, Mode.ofExclusive]
      cases hbusy : s.busy lf.Fd Mode.shared
      · simp [Prog.run]
      · simp [Prog.run, isErrno]
    · simp only [if_true, or_xor_cancel _ _ hex, heu, hse, or_true, if_false,
        Mode.ofExclusive]
      cases hbusy : s.busy lf.Fd Mode.exclusive
      · simp [Prog.run]
      · simp [Prog.run, isErrno]
  · simp only [Bool.not_true, Bool.false_eq_true, if_false, Prog.run, posixOS, posixFlock, ho,
      not_true_eq_false]
    cases ex
    · simp only [Bool.false_eq_true, if_false, hsh, Nat.xor_zero, hsu, hse, true_or,
        if_true, Mode.ofExclusive]
      cases hbusy : s.busy lf.Fd Mode.shared
      · simp [Prog.run]
      · simp [Prog.run, hnb2]
    · simp only [if_true, hex, Nat.xor_zero, heu, hse, or_true, if_false,
        Mode.ofExclusive]
      cases hbusy : s.busy lf.Fd Mode.exclusive
      · simp [Prog.run]
      · simp [Prog.run, hnb2]

/-- The POSIX `Unlock` under FLOCK, run on the kernel. -/
theorem unix_funlock_run (c : SyscallConsts) (hc : c.flockWellFormed) (s : PosixWorld)
    (lf : LockableFile) (hm : lf.unixLockType = FLOCK) (ho : lf.Fd ∈ s.opened) :
    (Unix.Unlock c lf).run (posixOS c) s =
      some (Outcome.returned none, { s with flocks := Function.update s.flocks lf.Fd none }) := by
  obtain ⟨hnb, hsh, hex, hun, hse, hsu, heu⟩ := hc
  have h1 : ¬ lf.unixLockType = FCNTL := by rw [hm]; exact FLOCK_ne_FCNTL
  unfold Unix.Unlock
  rw [if_neg h1, if_pos hm]
  simp [Prog.run, posixOS, posixFlock, ho, hun]

/-- The ranges that share a byte with the first byte of the file. -/
theorem overlaps_first_byte (o l : Nat) : overlaps o l 0 1 = true ↔ o = 0 ∧ 0 < l := by
  simp [overlaps]
  omega

/-- The kernel finds a request for the first byte excluded exactly when
another open handle holds an incompatible lock that covers it. -/
theorem windows_busy_iff (s : WinWorld) (h : Nat) (ex : Bool) :
    s.busy h (Mode.ofExclusive ex) 0 1 = true ↔
      ∃ h1 ∈ s.opened, h1 ≠ h ∧ ∃ k, s.locks h1 = some k ∧ (k.offset = 0 ∧ 0 < k.length) ∧
        (ex = true ∨ k.mode = Mode.exclusive) := by
  unfold WinWorld.busy
  rw [List.any_eq_true]
  constructor
  · rintro ⟨h1, hmem, hh⟩
    simp only [Bool.and_eq_true, bne_iff_ne, ne_eq] at hh
    refine ⟨h1, hmem, hh.1, ?_⟩
    cases hf : s.locks h1 with
    | none => simp [hf] at hh
    | some k =>
      simp only [hf, Bool.and_eq_true] at hh
      exact ⟨k, rfl, (overlaps_first_byte _ _).1 hh.2.1, (excludes_ofExclusive _ ex).1 hh.2.2⟩
  · rintro ⟨h1, hmem, hne, k, hk, hov, hex⟩
    refine ⟨h1, hmem, ?_⟩
    simp only [Bool.and_eq_true, bne_iff_ne, ne_eq, hk]
    exact ⟨hne, (overlaps_first_byte _ _).2 hov, (excludes_ofExclusive _ ex).2 hex⟩

/-- The Windows `lock` in non-blocking mode, run on the kernel. -/
theorem windows_lock_run (w : WinSyscall) (busy : Errno)
    (hbusy : busy = 33 ∨ busy = w.ERROR_IO_PENDING) (s : WinWorld)
    (lf : LockableFile) (ex : Bool) (hb : lf.blocking = false) (ho : lf.Fd ∈ s.opened) :
    (Windows.lock w lf ex).run (windowsOS busy) s =
      if s.busy lf.Fd (Mode.ofExclusive ex) 0 1 then
        some (Outcome.returned (some LOCK_CONFLICT), s)
      else some (Outcome.returned none,
        { s with
          locks := Function.update s.locks lf.Fd (some (WinLock.mk (Mode.ofExclusive ex) 0 1)) })
      := by
  have hb2 : busy = Windows.LOCK_CONFLICT_ERRNO ∨ busy = w.ERROR_IO_PENDING := hbusy
  unfold Windows.lock
  cases ex
  · simp only [hb, Prog.run, windowsOS, winLockFileEx, ho, Overlapped.zero, Mode.ofExclusive,
      Windows.LOCKFILE_FAIL_IMMEDIATELY, Windows.LOCKFILE_EXCLUSIVE_LOCK]
    cases hbz : s.busy lf.Fd Mode.shared 0 1
    · simp [hbz, Prog.run]
    · simp [hbz, Prog.run, hb2]
  · simp only [hb, Prog.run, windowsOS, winLockFileEx, ho, Overlapped.zero, Mode.ofExclusive,
      Windows.LOCKFILE_FAIL_IMMEDIATELY, Windows.LOCKFILE_EXCLUSIVE_LOCK]
    have h32 : (3 &&& 2 : Nat) = 2 := by decide
    cases hbz : s.busy lf.Fd Mode.exclusive 0 1
    · simp [hbz, Prog.run, h32]
    · simp [hbz, Prog.run, hb2, h32]

/-- The Windows `Unlock`, run on the kernel. -/
theorem windows_unlock_run (w : WinSyscall) (busy : Errno) (s : WinWorld)
    (lf : LockableFile) (ho : lf.Fd ∈ s.opened)
    (hk : ∀ k, s.locks lf.Fd = some k → k.offset = 0 ∧ k.length = 1) :
    (Windows.Unlock w lf).run (windowsOS busy) s =
      some (Outcome.returned none, { s with locks := Function.update s.locks lf.Fd none }) := by
  unfold Windows.Unlock
  simp only [Prog.run, windowsOS, winUnlockFileEx, ho, Overlapped.zero]
  cases hl : s.locks lf.Fd with
  | none =>
    have : Function.update s.locks lf.Fd none = s.locks := by
      rw [← hl]; exact Function.update_eq_self _ _
    simp [Prog.run, Windows.ALREADY_UNLOCKED_ERRNO, this]
  | some k =>
    obtain ⟨h0, h1⟩ := hk k hl
    simp [Prog.run, h0, h1]

/-- The POSIX `Unlock` under FCNTL, run on the kernel. -/
theorem unix_fcntl_unlock_run (c : SyscallConsts) (hs : c.SeekStart = 0) (s : PosixWorld)
    (lf : LockableFile) (hm : lf.unixLockType = FCNTL) (ho : lf.Fd ∈ s.opened) :
    (Unix.Unlock c lf).run (posixOS c) s =
      some (Outcome.returned none, { s with record := none }) := by
  unfold Unix.Unlock
  rw [if_pos hm]
  simp [Prog.run, posixOS, posixFcntl, ho, hs]

/-- The Windows `Unlock` takes the "already unlocked" answer for success. -/
theorem windows_unlock_already (w : WinSyscall) (lf : LockableFile)
    (answer : (r : Request) → Response r) (r : Request)
    (hr : r ∈ (Windows.Unlock w lf).requests answer)
    (hst : status r (answer r)
      = NativeStatus.failed (SysError.errno Windows.ALREADY_UNLOCKED_ERRNO)) :
    (Windows.Unlock w lf).result answer = Outcome.returned none := by
  unfold Windows.Unlock at hr ⊢
  have hr0 := Prog.mem_requests_call answer _ _
    (by intro x; split_ifs <;> rfl) r hr
  subst hr0
  simp only [Prog.result]
  generalize answer (Request.UnlockFileEx _ _ _ _ _) = x at hst ⊢
  simp only [status] at hst
  by_cases h0 : x.r1 = 0
  · simp only [h0, if_true, NativeStatus.failed.injEq, SysError.errno.injEq] at hst
    simp [h0, hst, Prog.result]
  · simp [h0] at hst

/-- Result of a sequence whose first part returns. -/
theorem Prog.result_bind_of_returned {α β : Type} (answer : (r : Request) → Response r)
    (p : Prog α) (f : α → Prog β) (a : α) (h : p.result answer = Outcome.returned a) :
    (p.bind f).result answer = (f a).result answer := by
  induction p with
  | ret b =>
    simp only [Prog.result, Outcome.returned.injEq] at h
    subst h
    rfl
  | fatal m => simp [Prog.result] at h
  | call r k ih => exact ih (answer r) h

/-- Calls of a sequence whose first part returns. -/
theorem Prog.requests_bind_of_returned {α β : Type} (answer : (r : Request) → Response r)
    (p : Prog α) (f : α → Prog β) (a : α) (h : p.result answer = Outcome.returned a) :
    (p.bind f).requests answer = p.requests answer ++ (f a).requests answer := by
  induction p with
  | ret b =>
    simp only [Prog.result, Outcome.returned.injEq] at h
    subst h
    rfl
  | fatal m => simp [Prog.result] at h
  | call r k ih =>
    simp only [Prog.bind, Prog.requests, List.cons_append, List.cons.injEq, true_and]
    exact ih (answer r) h

/-- A run of a sequence that returns splits into a run of each part. -/
theorem Prog.run_bind_inv {σ α β : Type} (os : OS σ) (p : Prog α) (f : α → Prog β)
    (s s2 : σ) (b : β) (h : (p.bind f).run os s = some (Outcome.returned b, s2)) :
    ∃ a s1, p.run os s = some (Outcome.returned a, s1) ∧
      (f a).run os s1 = some (Outcome.returned b, s2) := by
  induction p generalizing s with
  | ret a => exact ⟨a, s, rfl, h⟩
  | fatal m => simp [Prog.bind, Prog.run] at h
  | call r k ih =>
    simp only [Prog.bind, Prog.run] at h ⊢
    cases hh : os.handle r s with
    | none => simp [hh] at h
    | some xs =>
      obtain ⟨x, s1⟩ := xs
      simp only [hh] at h ⊢
      exact ih x s1 h

/-- A run of a sequence whose first part returns continues with the second. -/
theorem Prog.run_bind_of_returned {σ α β : Type} (os : OS σ) (p : Prog α) (f : α → Prog β)
    (s s1 : σ) (a : α) (h : p.run os s = some (Outcome.returned a, s1)) :
    (p.bind f).run os s = (f a).run os s1 := by
  induction p generalizing s with
  | ret b =>
    simp only [Prog.run, Option.some.injEq, Prod.mk.injEq, Outcome.returned.injEq] at h
    obtain ⟨rfl, rfl⟩ := h
    rfl
  | fatal m => simp [Prog.run] at h
  | call r k ih =>
    simp only [Prog.bind, Prog.run] at h ⊢
    cases hh : os.handle r s with
    | none => simp [hh] at h
    | some xs =>
      obtain ⟨x, s2⟩ := xs
      simp only [hh] at h ⊢
      exact ih x s2 h

/-- The POSIX `Unlock` never calls `Close`. -/
theorem unix_Unlock_no_close (c : SyscallConsts) (lf : LockableFile)
    (answer : (r : Request) → Response r) (fd : Nat) :
    Request.Close fd ∉ (Unix.Unlock c lf).requests answer := by
  unfold Unix.Unlock
  by_cases h1 : lf.unixLockType = FCNTL
  · rw [if_pos h1]
    intro hr
    have := Prog.mem_requests_call answer _ _ (by intro x; cases x <;> rfl) _ hr
    cases this
  · by_cases h2 : lf.unixLockType = FLOCK
    · rw [if_neg h1, if_pos h2]
      intro hr
      have := Prog.mem_requests_call answer _ _ (by intro x; cases x <;> rfl) _ hr
      cases this
    · simp [h1, h2, Prog.requests]

/-- The Windows `Unlock` never calls `Close`. -/
theorem windows_Unlock_no_close (w : WinSyscall) (lf : LockableFile)
    (answer : (r : Request) → Response r) (fd : Nat) :
    Request.Close fd ∉ (Windows.Unlock w lf).requests answer := by
  unfold Windows.Unlock
  intro hr
  have := Prog.mem_requests_call answer _ _ (by intro x; split_ifs <;> rfl) _ hr
  cases this

/-- What `UnlockAndClose` does after an `Unlock` that returned an error. -/
theorem UnlockAndClose_of_error (U : LockableFile → Prog (Option GoError)) (lf : LockableFile)
    (answer : (r : Request) → Response r) (e : GoError)
    (h : (U lf).result answer = Outcome.returned (some e)) :
    (UnlockAndClose U lf).result answer = Outcome.returned (some e) ∧
      (UnlockAndClose U lf).requests answer = (U lf).requests answer := by
  unfold UnlockAndClose
  rw [Prog.result_bind_of_returned answer _ _ _ h, Prog.requests_bind_of_returned answer _ _ _ h]
  simp [Prog.result, Prog.requests]

/-- What `UnlockAndClose` does after an `Unlock` that returned nil. -/
theorem UnlockAndClose_of_nil (U : LockableFile → Prog (Option GoError)) (lf : LockableFile)
    (answer : (r : Request) → Response r)
    (h : (U lf).result answer = Outcome.returned none) :
    (UnlockAndClose U lf).result answer
        = Outcome.returned (Option.map GoError.sys (answer (Request.Close lf.Fd))) ∧
      (UnlockAndClose U lf).requests answer
        = (U lf).requests answer ++ [Request.Close lf.Fd] := by
  unfold UnlockAndClose
  rw [Prog.result_bind_of_returned answer _ _ _ h, Prog.requests_bind_of_returned answer _ _ _ h]
  simp [Prog.result, Prog.requests]

/-- The native `flock` of the model never opens or closes a descriptor. -/
theorem posixFlock_opened (c : SyscallConsts) (s s1 : PosixWorld) (fd how : Nat)
    (x : Option SysError) (h : posixFlock c s fd how = some (x, s1)) : s1.opened = s.opened := by
  unfold posixFlock at h
  dsimp only at h
  split_ifs at h <;> simp only [Option.some.injEq, Prod.mk.injEq, reduceCtorEq] at h <;>
    (obtain ⟨_, rfl⟩ := h; rfl)

/-- The native `fcntl` of the model never opens or closes a descriptor. -/
theorem posixFcntl_opened (c : SyscallConsts) (s s1 : PosixWorld) (fd cmd : Nat) (lk : Flock_t)
    (x : Option SysError) (h : posixFcntl c s fd cmd lk = some (x, s1)) :
    s1.opened = s.opened := by
  unfold posixFcntl at h
  dsimp only at h
  split_ifs at h <;> simp only [Option.some.injEq, Prod.mk.injEq, reduceCtorEq] at h <;>
    (obtain ⟨_, rfl⟩ := h; rfl)

/-- The POSIX `Unlock` leaves every descriptor as open as it was. -/
theorem unix_Unlock_opened (c : SyscallConsts) (lf : LockableFile) (s s1 : PosixWorld)
    (o : Outcome (Option GoError)) (h : (Unix.Unlock c lf).run (posixOS c) s = some (o, s1)) :
    s1.opened = s.opened := by
  unfold Unix.Unlock at h
  by_cases h1 : lf.unixLockType = FCNTL
  · rw [if_pos h1] at h
    simp only [Prog.run, posixOS] at h
    cases hx : posixFcntl c s lf.Fd c.F_SETLKW
        { Typ := c.F_UNLCK, Whence := 0, Start := 0, Len := 0 } with
    | none => simp [hx] at h
    | some xs =>
      obtain ⟨x, s2⟩ := xs
      simp only [hx] at h
      have h2 := posixFcntl_opened c s s2 _ _ _ x hx
      cases x <;> simp only [Prog.run, Option.some.injEq, Prod.mk.injEq] at h <;>
        (obtain ⟨_, rfl⟩ := h; exact h2)
  · by_cases h2 : lf.unixLockType = FLOCK
    · rw [if_neg h1, if_pos h2] at h
      simp only [Prog.run, posixOS] at h
      cases hx : posixFlock c s lf.Fd c.LOCK_UN with
      | none => simp [hx] at h
      | some xs =>
        obtain ⟨x, s2⟩ := xs
        simp only [hx] at h
        have h3 := posixFlock_opened c s s2 _ _ x hx
        cases x <;> simp only [Prog.run, Option.some.injEq, Prod.mk.injEq] at h <;>
          (obtain ⟨_, rfl⟩ := h; exact h3)
    · rw [if_neg h1, if_neg h2] at h
      simp only [Prog.run, Option.some.injEq, Prod.mk.injEq] at h
      obtain ⟨_, rfl⟩ := h
      rfl

/-- The Windows `Unlock` leaves every handle as open as it was. -/
theorem windows_Unlock_opened (w : WinSyscall) (busy : Errno) (lf : LockableFile)
    (s s1 : WinWorld) (o : Outcome (Option GoError))
    (h : (Windows.Unlock w lf).run (windowsOS busy) s = some (o, s1)) :
    s1.opened = s.opened := by
  unfold Windows.Unlock at h
  simp only [Prog.run, windowsOS] at h
  cases hx : winUnlockFileEx s lf.Fd 1 0 Overlapped.zero with
  | none => simp [hx] at h
  | some xs =>
    obtain ⟨x, s2⟩ := xs
    simp only [hx] at h
    have h2 : s2.opened = s.opened := by
      unfold winUnlockFileEx at hx
      split at hx
      · simp only [Option.some.injEq, Prod.mk.injEq] at hx
        obtain ⟨_, rfl⟩ := hx; rfl
      · dsimp only at hx
        split at hx
        · split_ifs at hx <;> simp only [Option.some.injEq, Prod.mk.injEq] at hx <;>
            (obtain ⟨_, rfl⟩ := hx; rfl)
        · simp only [Option.some.injEq, Prod.mk.injEq] at hx
          obtain ⟨_, rfl⟩ := hx; rfl
    split_ifs at h <;> simp only [Prog.run, Option.some.injEq, Prod.mk.injEq] at h <;>
      (obtain ⟨_, rfl⟩ := h; exact h2)

/-- After an `UnlockAndClose` that returned nil on POSIX the descriptor is
closed and closing it again fails. -/
theorem unix_closed_after (c : SyscallConsts) (lf : LockableFile) (s s1 : PosixWorld)
    (h : (UnlockAndClose (Unix.Unlock c) lf).run (posixOS c) s
      = some (Outcome.returned none, s1)) :
    lf.Fd ∉ s1.opened ∧ ∃ e, (posixOS c).handle (Request.Close lf.Fd) s1 = some (some e, s1) := by
  unfold UnlockAndClose at h
  obtain ⟨a, s2, _, hC⟩ := Prog.run_bind_inv _ _ _ _ _ _ h
  cases a with
  | some e => simp [Prog.run] at hC
  | none =>
    simp only [ne_eq, not_true_eq_false, if_false, Prog.run, posixOS, posixClose] at hC
    by_cases ho : lf.Fd ∈ s2.opened
    · simp only [ho, if_true, Prog.run, Option.map, Option.some.injEq, Prod.mk.injEq,
        true_and] at hC
      subst hC
      have hn : lf.Fd ∉ List.filter (fun h => h != lf.Fd) s2.opened := by
        simp [List.mem_filter]
      exact ⟨hn, SysError.other "file already closed", by simp [posixOS, posixClose, hn]⟩
    · simp [ho, Prog.run] at hC

/-- After an `UnlockAndClose` that returned nil on Windows the handle is
closed and closing it again fails. -/
theorem windows_closed_after (w : WinSyscall) (busy : Errno) (lf : LockableFile)
    (s s1 : WinWorld)
    (h : (UnlockAndClose (Windows.Unlock w) lf).run (windowsOS busy) s
      = some (Outcome.returned none, s1)) :
    lf.Fd ∉ s1.opened ∧
      ∃ e, (windowsOS busy).handle (Request.Close lf.Fd) s1 = some (some e, s1) := by
  unfold UnlockAndClose at h
  obtain ⟨a, s2, _, hC⟩ := Prog.run_bind_inv _ _ _ _ _ _ h
  cases a with
  | some e => simp [Prog.run] at hC
  | none =>
    simp only [ne_eq, not_true_eq_false, if_false, Prog.run, windowsOS, winClose] at hC
    by_cases ho : lf.Fd ∈ s2.opened
    · simp only [ho, if_true, Prog.run, Option.map, Option.some.injEq, Prod.mk.injEq,
        true_and] at hC
      subst hC
      have hn : lf.Fd ∉ List.filter (fun h => h != lf.Fd) s2.opened := by
        simp [List.mem_filter]
      exact ⟨hn, SysError.other "file already closed", by simp [windowsOS, winClose, hn]⟩
    · simp [ho, Prog.run] at hC

/-- A body that makes one call and then returns issues just that call. -/
theorem Prog.requests_call_eq {α : Type} (answer : (r : Request) → Response r)
    (r0 : Request) (k : Response r0 → Prog α)
    (hk : ∀ x, Prog.requests answer (k x) = []) :
    (Prog.call r0 k).requests answer = [r0] := by
  simp [Prog.requests, hk]

/-- The call issued by the POSIX `lock` under FLOCK. -/
theorem unix_lock_requests_flock (c : SyscallConsts) (lf : LockableFile) (ex : Bool)
    (answer : (r : Request) → Response r) (hm : lf.unixLockType = FLOCK) :
    (Unix.lock c lf ex).requests answer =
      [Request.Flock lf.Fd (if lf.blocking then (if ex then c.LOCK_EX else c.LOCK_SH)
        else (if ex then c.LOCK_EX else c.LOCK_SH) ||| c.LOCK_NB)] := by
  have h1 : ¬ lf.unixLockType = FCNTL := by rw [hm]; exact FLOCK_ne_FCNTL
  unfold Unix.lock
  rw [if_neg h1, if_pos hm, Prog.requests_call_eq answer _ _
    (by intro x; cases x <;> first | rfl | (dsimp only; split_ifs <;> rfl))]
  cases lf.blocking <;> rfl

/-- The call issued by the POSIX `lock` under FCNTL. -/
theorem unix_lock_requests_fcntl (c : SyscallConsts) (lf : LockableFile) (ex : Bool)
    (answer : (r : Request) → Response r) (hm : lf.unixLockType = FCNTL) :
    (Unix.lock c lf ex).requests answer =
      [Request.FcntlFlock lf.Fd (if lf.blocking then c.F_SETLKW else c.F_SETLK)
        { Typ := if ex then c.F_WRLCK else c.F_RDLCK, Whence := c.SeekStart,
          Start := 0, Len := 0 }] := by
  unfold Unix.lock
  rw [if_pos hm, Prog.requests_call_eq answer _ _
    (by intro x; cases x <;> first | rfl | (dsimp only; split_ifs <;> rfl))]

/-- The call issued by the Windows `lock`. -/
theorem windows_lock_requests (w : WinSyscall) (lf : LockableFile) (ex : Bool)
    (answer : (r : Request) → Response r) :
    (Windows.lock w lf ex).requests answer =
      [Request.LockFileEx lf.Fd ((if ex then 2 else 0) + (if lf.blocking then 0 else 1))
        0 1 0 Overlapped.zero] := by
  unfold Windows.lock
  rw [Prog.requests_call_eq answer _ _ (by intro x; split_ifs <;> rfl)]
  cases ex <;> cases lf.blocking <;> rfl

/-- The call issued by the Windows `Unlock`. -/
theorem windows_Unlock_requests (w : WinSyscall) (lf : LockableFile)
    (answer : (r : Request) → Response r) :
    (Windows.Unlock w lf).requests answer =
      [Request.UnlockFileEx lf.Fd 0 1 0 Overlapped.zero] := by
  unfold Windows.Unlock
  rw [Prog.requests_call_eq answer _ _ (by intro x; split_ifs <;> rfl)]

/-- The scenario of `TestNonblockingErrors` on the POSIX model: the second
exclusive request conflicts until the first handle unlocks. -/
theorem test_nonblocking_errors_posix :
    Prog.runSeq (posixOS linux)
      [Unix.RWLock linux (DisableBlocking (Unix.New { fd := 3, name := "/tmp/a" })),
       Unix.RWLock linux (DisableBlocking (Unix.New { fd := 4, name := "/tmp/a" })),
       Unix.Unlock linux (DisableBlocking (Unix.New { fd := 3, name := "/tmp/a" })),
       Unix.RWLock linux (DisableBlocking (Unix.New { fd := 4, name := "/tmp/a" })),
       Unix.Unlock linux (DisableBlocking (Unix.New { fd := 4, name := "/tmp/a" }))]
      idlePosix
    = [some (Outcome.returned none), some (Outcome.returned (some LOCK_CONFLICT)),
       some (Outcome.returned none), some (Outcome.returned none),
       some (Outcome.returned none)] := by
  rfl

/-- The scenario of `TestExclusive` on the POSIX model: two shared locks
coexist, and the exclusive request conflicts until both are released. -/
theorem test_exclusive_posix :
    Prog.runSeq (posixOS linux)
      [Unix.RLock linux (Unix.New { fd := 3, name := "/tmp/a" }),
       Unix.RLock linux (Unix.New { fd := 4, name := "/tmp/a" }),
       Unix.RWLock linux (DisableBlocking (Unix.New { fd := 5, name := "/tmp/a" })),
       UnlockAndClose (Unix.Unlock linux) (Unix.New { fd := 3, name := "/tmp/a" }),
       Unix.RWLock linux (DisableBlocking (Unix.New { fd := 5, name := "/tmp/a" })),
       UnlockAndClose (Unix.Unlock linux) (Unix.New { fd := 4, name := "/tmp/a" }),
       Unix.RWLock linux (DisableBlocking (Unix.New { fd := 5, name := "/tmp/a" })),
       UnlockAndClose (Unix.Unlock linux)
         (DisableBlocking (Unix.New { fd := 5, name := "/tmp/a" }))]
      idlePosix
    = [some (Outcome.returned none), some (Outcome.returned none),
       some (Outcome.returned (some LOCK_CONFLICT)), some (Outcome.returned none),
       some (Outcome.returned (some LOCK_CONFLICT)), some (Outcome.returned none),
       some (Outcome.returned none), some (Outcome.returned none)] := by
  rfl

/-- The scenario of `TestExclusive` on the Windows model. -/
theorem test_exclusive_windows :
    Prog.runSeq (windowsOS 33)
      [Windows.RLock windows (Windows.New { fd := 3, name := "a" }),
       Windows.RLock windows (Windows.New { fd := 4, name := "a" }),
       Windows.RWLock windows (DisableBlocking (Windows.New { fd := 5, name := "a" })),
       UnlockAndClose (Windows.Unlock windows) (Windows.New { fd := 3, name := "a" }),
       Windows.RWLock windows (DisableBlocking (Windows.New { fd := 5, name := "a" })),
       UnlockAndClose (Windows.Unlock windows) (Windows.New { fd := 4, name := "a" }),
       Windows.RWLock windows (DisableBlocking (Windows.New { fd := 5, name := "a" })),
       UnlockAndClose (Windows.Unlock windows)
         (DisableBlocking (Windows.New { fd := 5, name := "a" }))]
      idleWindows
    = [some (Outcome.returned none), some (Outcome.returned none),
       some (Outcome.returned (some LOCK_CONFLICT)), some (Outcome.returned none),
       some (Outcome.returned (some LOCK_CONFLICT)), some (Outcome.returned none),
       some (Outcome.returned none), some (Outcome.returned none)] := by
  rfl

/-- One scheduler step takes a configuration of the two goroutines to the
next one, or leaves it where it is. -/
theorem criticalStage_step {σ : Type} (os : OS σ)
    (RWLock Unlock : LockableFile → Prog (Option GoError)) (A B : LockableFile)
    (s0 s1 s2 s3 : σ) (content text1 text2 : String)
    (h0 : (RWLock B).run os s0 = none)
    (h1 : (Unlock A).run os s0 = some (Outcome.returned none, s1))
    (h2 : (RWLock B).run os s1 = some (Outcome.returned none, s2))
    (h3 : (Unlock B).run os s2 = some (Outcome.returned none, s3))
    (n : Nat) (second : Bool) :
    ∃ m, Config.step os (criticalStage RWLock Unlock A B s0 s1 s2 s3 content text1 text2 n)
      second = criticalStage RWLock Unlock A B s0 s1 s2 s3 content text1 text2 m := by
  match n, second with
  | 0, false => exact ⟨1, by simp [Config.step, criticalStage, criticalSections, criticalTrace]⟩
  | 0, true => exact ⟨0, by simp [Config.step, criticalStage, criticalSections, h0]⟩
  | 1, false => exact ⟨2, by simp [Config.step, criticalStage, criticalTrace, h1]⟩
  | 1, true => exact ⟨1, by simp [Config.step, criticalStage, h0]⟩
  | 2, false => exact ⟨2, by simp [Config.step, criticalStage]⟩
  | 2, true => exact ⟨3, by simp [Config.step, criticalStage, criticalTrace, h2]⟩
  | 3, false => exact ⟨3, by simp [Config.step, criticalStage]⟩
  | 3, true => exact ⟨4, by simp [Config.step, criticalStage, criticalTrace]⟩
  | 4, false => exact ⟨4, by simp [Config.step, criticalStage]⟩
  | 4, true => exact ⟨5, by simp [Config.step, criticalStage, criticalTrace, h3]⟩
  | n + 5, false => exact ⟨5, by simp [Config.step, criticalStage]⟩
  | n + 5, true => exact ⟨5, by simp [Config.step, criticalStage]⟩

/-- Under every schedule the two goroutines are in one of the six
configurations. -/
theorem criticalStage_schedule {σ : Type} (os : OS σ)
    (RWLock Unlock : LockableFile → Prog (Option GoError)) (A B : LockableFile)
    (s0 s1 s2 s3 : σ) (content text1 text2 : String)
    (h0 : (RWLock B).run os s0 = none)
    (h1 : (Unlock A).run os s0 = some (Outcome.returned none, s1))
    (h2 : (RWLock B).run os s1 = some (Outcome.returned none, s2))
    (h3 : (Unlock B).run os s2 = some (Outcome.returned none, s3))
    (sched : List Bool) (n : Nat) :
    ∃ m, Config.schedule os
      (criticalStage RWLock Unlock A B s0 s1 s2 s3 content text1 text2 n) sched
      = criticalStage RWLock Unlock A B s0 s1 s2 s3 content text1 text2 m := by
  induction sched generalizing n with
  | nil => exact ⟨n, rfl⟩
  | cons b rest ih =>
    obtain ⟨m, hm⟩ := criticalStage_step os RWLock Unlock A B s0 s1 s2 s3 content text1 text2
      h0 h1 h2 h3 n b
    obtain ⟨k, hk⟩ := ih m
    exact ⟨k, by simp only [Config.schedule, List.foldl_cons] at hk ⊢; rw [hm]; exact hk⟩

/-- What every one of the six configurations satisfies: the steps made are
an initial part of the one possible order, and once both goroutines have
finished the file holds the first text followed by the second. -/
theorem criticalStage_facts {σ : Type}
    (RWLock Unlock : LockableFile → Prog (Option GoError)) (A B : LockableFile)
    (s0 s1 s2 s3 : σ) (content text1 text2 : String) (n : Nat) :
    (criticalStage RWLock Unlock A B s0 s1 s2 s3 content text1 text2 n).trace
        <+: criticalTrace text1 text2 ∧
      ((criticalStage RWLock Unlock A B s0 s1 s2 s3 content text1 text2 n).second = [] →
        (criticalStage RWLock Unlock A B s0 s1 s2 s3 content text1 text2 n).content
          = content ++ text1 ++ text2) := by
  match n with
  | 0 => exact ⟨by simp [criticalStage, criticalSections], by simp [criticalStage, criticalSections]⟩
  | 1 => exact ⟨List.take_prefix _ _, by simp [criticalStage]⟩
  | 2 => exact ⟨List.take_prefix _ _, by simp [criticalStage]⟩
  | 3 => exact ⟨List.take_prefix _ _, by simp [criticalStage]⟩
  | 4 => exact ⟨List.take_prefix _ _, by simp [criticalStage]⟩
  | n + 5 => exact ⟨List.prefix_refl _, fun _ => rfl⟩

/-- The schedule that lets the first goroutine run to its end and then the
second one finishes both. -/
theorem criticalStage_finish {σ : Type} (os : OS σ)
    (RWLock Unlock : LockableFile → Prog (Option GoError)) (A B : LockableFile)
    (s0 s1 s2 s3 : σ) (content text1 text2 : String)
    (h1 : (Unlock A).run os s0 = some (Outcome.returned none, s1))
    (h2 : (RWLock B).run os s1 = some (Outcome.returned none, s2))
    (h3 : (Unlock B).run os s2 = some (Outcome.returned none, s3)) :
    Config.schedule os (criticalSections RWLock Unlock A B s0 content text1 text2)
        [false, false, true, true, true]
      = criticalStage RWLock Unlock A B s0 s1 s2 s3 content text1 text2 5 := by
  simp [Config.schedule, Config.step, criticalStage, criticalSections, criticalTrace, h1, h2, h3]

/-- The Windows `lock` of a blocking handle, run on the kernel: a request
that another handle excludes suspends the caller, any other is granted. -/
theorem windows_lock_run_blocking (w : WinSyscall) (busy : Errno) (s : WinWorld)
    (lf : LockableFile) (ex : Bool) (hb : lf.blocking = true) (ho : lf.Fd ∈ s.opened) :
    (Windows.lock w lf ex).run (windowsOS busy) s =
      if s.busy lf.Fd (Mode.ofExclusive ex) 0 1 then none
      else some (Outcome.returned none,
        { s with
          locks := Function.update s.locks lf.Fd (some (WinLock.mk (Mode.ofExclusive ex) 0 1)) })
      := by
  unfold Windows.lock
  cases ex
  · simp only [hb, Prog.run, windowsOS, winLockFileEx, ho, Overlapped.zero, Mode.ofExclusive,
      Windows.LOCKFILE_FAIL_IMMEDIATELY, Windows.LOCKFILE_EXCLUSIVE_LOCK]
    cases hbz : s.busy lf.Fd Mode.shared 0 1
    · simp [hbz, Prog.run]
    · simp [hbz, Prog.run]
  · simp only [hb, Prog.run, windowsOS, winLockFileEx, ho, Overlapped.zero, Mode.ofExclusive,
      Windows.LOCKFILE_FAIL_IMMEDIATELY, Windows.LOCKFILE_EXCLUSIVE_LOCK]
    have h22 : (2 &&& 2 : Nat) = 2 := by decide
    have h21 : (2 &&& 1 : Nat) = 0 := by decide
    cases hbz : s.busy lf.Fd Mode.exclusive 0 1
    · simp [hbz, Prog.run, h22, h21]
    · simp [hbz, Prog.run, h22, h21]

/-- The runs of the POSIX driver behind the two goroutines: while `A` holds
the exclusive lock the blocking `RWLock` of `B` is suspended; `A` unlocks,
`B` locks, `B` unlocks, each with result nil. -/
theorem unix_critical_runs (c : SyscallConsts) (hc : c.flockWellFormed) (A B : LockableFile)
    (hAB : A.Fd ≠ B.Fd) (hB : B.blocking = true) (hmA : A.unixLockType = FLOCK)
    (hmB : B.unixLockType = FLOCK) (s : PosixWorld) (hoA : A.Fd ∈ s.opened)
    (hoB : B.Fd ∈ s.opened) (hA : s.flocks A.Fd = some Mode.exclusive) :
    (Unix.RWLock c B).run (posixOS c) s = none ∧
    (Unix.Unlock c A).run (posixOS c) s
      = some (Outcome.returned none, s.setFlock A.Fd none) ∧
    ((∀ h ∈ s.opened, h ≠ A.Fd → s.flocks h = none) →
      (Unix.RWLock c B).run (posixOS c) (s.setFlock A.Fd none)
        = some (Outcome.returned none,
            (s.setFlock A.Fd none).setFlock B.Fd (some Mode.exclusive)) ∧
      (Unix.Unlock c B).run (posixOS c)
          ((s.setFlock A.Fd none).setFlock B.Fd (some Mode.exclusive))
        = some (Outcome.returned none,
            ((s.setFlock A.Fd none).setFlock B.Fd (some Mode.exclusive)).setFlock B.Fd none))
    := by
  refine ⟨?_, unix_funlock_run c hc s A hmA hoA, fun hnone => ⟨?_, ?_⟩⟩
  · have hbusy : s.busy B.Fd (Mode.ofExclusive true) = true :=
      (posix_busy_iff s B.Fd true).2 ⟨A.Fd, hoA, hAB, Mode.exclusive, hA, Or.inl rfl⟩
    show (Unix.lock c B true).run (posixOS c) s = none
    rw [unix_flock_run c hc s B true hmB hoB, hbusy, hB]
    rfl
  · have hfree : (s.setFlock A.Fd none).busy B.Fd (Mode.ofExclusive true) = false := by
      rw [← Bool.not_eq_true, posix_busy_iff]
      rintro ⟨h, hmem, _, m, hm, _⟩
      by_cases hh : h = A.Fd
      · subst hh
        simp [PosixWorld.setFlock] at hm
      · have : s.flocks h = none := hnone h hmem hh
        simp [PosixWorld.setFlock, Function.update_noteq hh, this] at hm
    show (Unix.lock c B true).run (posixOS c) _ = _
    rw [unix_flock_run c hc (s.setFlock A.Fd none) B true hmB hoB, hfree]
    rfl
  · exact unix_funlock_run c hc
      ((s.setFlock A.Fd none).setFlock B.Fd (some Mode.exclusive)) B hmB hoB

/-- The runs of the Windows driver behind the two goroutines: while `A`
holds the exclusive lock the blocking `RWLock` of `B` is suspended; `A`
unlocks, `B` locks, `B` unlocks, each with result nil. -/
theorem windows_critical_runs (w : WinSyscall) (busy : Errno) (A B : LockableFile)
    (hAB : A.Fd ≠ B.Fd) (hB : B.blocking = true) (s : WinWorld) (hoA : A.Fd ∈ s.opened)
    (hoB : B.Fd ∈ s.opened) (hA : s.locks A.Fd = some (WinLock.mk Mode.exclusive 0 1)) :
    (Windows.RWLock w B).run (windowsOS busy) s = none ∧
    (Windows.Unlock w A).run (windowsOS busy) s
      = some (Outcome.returned none, s.setLock A.Fd none) ∧
    ((∀ h ∈ s.opened, h ≠ A.Fd → s.locks h = none) →
      (Windows.RWLock w B).run (windowsOS busy) (s.setLock A.Fd none)
        = some (Outcome.returned none,
            (s.setLock A.Fd none).setLock B.Fd (some (WinLock.mk Mode.exclusive 0 1))) ∧
      (Windows.Unlock w B).run (windowsOS busy)
          ((s.setLock A.Fd none).setLock B.Fd (some (WinLock.mk Mode.exclusive 0 1)))
        = some (Outcome.returned none,
            ((s.setLock A.Fd none).setLock B.Fd
              (some (WinLock.mk Mode.exclusive 0 1))).setLock B.Fd none)) := by
  refine ⟨?_, ?_, fun hnone => ⟨?_, ?_⟩⟩
  · have hbusy : s.busy B.Fd (Mode.ofExclusive true) 0 1 = true :=
      (windows_busy_iff s B.Fd true).2
        ⟨A.Fd, hoA, hAB, _, hA, ⟨rfl, Nat.zero_lt_one⟩, Or.inl rfl⟩
    show (Windows.lock w B true).run (windowsOS busy) s = none
    rw [windows_lock_run_blocking w busy s B true hB hoB, hbusy]
    rfl
  · exact windows_unlock_run w busy s A hoA
      (by intro k hk; rw [hA] at hk; cases hk; exact ⟨rfl, rfl⟩)
  · have hfree : (s.setLock A.Fd none).busy B.Fd (Mode.ofExclusive true) 0 1 = false := by
      rw [← Bool.not_eq_true, windows_busy_iff]
      rintro ⟨h, hmem, _, k, hk, _⟩
      by_cases hh : h = A.Fd
      · subst hh
        simp [WinWorld.setLock] at hk
      · have : s.locks h = none := hnone h hmem hh
        simp [WinWorld.setLock, Function.update_noteq hh, this] at hk
    show (Windows.lock w B true).run (windowsOS busy) _ = _
    rw [windows_lock_run_blocking w busy (s.setLock A.Fd none) B true hB hoB, hfree]
    rfl
  · exact windows_unlock_run w busy
      ((s.setLock A.Fd none).setLock B.Fd (some (WinLock.mk Mode.exclusive 0 1))) B hoB
      (by intro k hk; simp [WinWorld.setLock] at hk; subst hk; exact ⟨rfl, rfl⟩)

/-- A refused change of lock kind on the POSIX model: descriptor 3 loses its
shared lock when its exclusive request is refused, so the exclusive request
of descriptor 4 is granted and the next shared request of 3 is refused. -/
theorem test_refused_conversion_posix :
    Prog.runSeq (posixOS linux)
      [Unix.RLock linux (DisableBlocking (Unix.New { fd := 3, name := "/tmp/a" })),
       Unix.RLock linux (DisableBlocking (Unix.New { fd := 4, name := "/tmp/a" })),
       Unix.RWLock linux (DisableBlocking (Unix.New { fd := 3, name := "/tmp/a" })),
       Unix.RWLock linux (DisableBlocking (Unix.New { fd := 4, name := "/tmp/a" })),
       Unix.RLock linux (DisableBlocking (Unix.New { fd := 3, name := "/tmp/a" })),
       Unix.Unlock linux (DisableBlocking (Unix.New { fd := 4, name := "/tmp/a" })),
       Unix.RWLock linux (DisableBlocking (Unix.New { fd := 3, name := "/tmp/a" }))]
      idlePosix
    = [some (Outcome.returned none), some (Outcome.returned none),
       some (Outcome.returned (some LOCK_CONFLICT)), some (Outcome.returned none),
       some (Outcome.returned (some LOCK_CONFLICT)), some (Outcome.returned none),
       some (Outcome.returned none)] := by
  rfl

/-- The scenario of `TestBlockingLockAndUnlock` on the POSIX model, under a
schedule that lets the second goroutine try first: the file ends up holding
"thread1 thread2". -/
theorem test_blocking_lock_and_unlock_posix :
    (Config.schedule (posixOS linux)
      (criticalSections (Unix.RWLock linux) (Unix.Unlock linux)
        (Unix.New { fd := 3, name := "/tmp/a" }) (Unix.New { fd := 4, name := "/tmp/a" })
        oneWriter "" "thread1 " "thread2")
      [true, false, true, true, false, true, false, true, true]).content
      = "thread1 thread2" := by
  rfl

/-- C1. For every handle and every native answer, `RLock` and `RWLock` issue
exactly one native locking call, and whenever that call reports its
lock-held-elsewhere status they return `LOCK_CONFLICT`, the same value under
the three mechanisms: `EWOULDBLOCK` from `flock` under FLOCK, `EAGAIN` or
`EACCES` from `fcntl` under FCNTL, a zero return with `ERROR_IO_PENDING` or
error 33 from `LockFileEx` on Windows.  This holds in either blocking mode,
in particular in non-blocking mode. -/
theorem lock_conflict_is_sentinel (c : SyscallConsts) (w : WinSyscall) (lf : LockableFile)
    (answer : (r : Request) → Response r) :
    (lf.unixLockType = FLOCK → ∀ p ∈ [Unix.RLock c lf, Unix.RWLock c lf],
      ∃ how, p.requests answer = [Request.Flock lf.Fd how] ∧
        (answer (Request.Flock lf.Fd how) = some (SysError.errno c.EWOULDBLOCK) →
          p.result answer = Outcome.returned (some LOCK_CONFLICT))) ∧
    (lf.unixLockType = FCNTL → ∀ p ∈ [Unix.RLock c lf, Unix.RWLock c lf],
      ∃ cmd lk, p.requests answer = [Request.FcntlFlock lf.Fd cmd lk] ∧
        (answer (Request.FcntlFlock lf.Fd cmd lk) = some (SysError.errno c.EAGAIN) ∨
          answer (Request.FcntlFlock lf.Fd cmd lk) = some (SysError.errno c.EACCES) →
          p.result answer = Outcome.returned (some LOCK_CONFLICT))) ∧
    (∀ p ∈ [Windows.RLock w lf, Windows.RWLock w lf],
      ∃ flags, p.requests answer = [Request.LockFileEx lf.Fd flags 0 1 0 Overlapped.zero] ∧
        (ProcResult.r1 (answer (Request.LockFileEx lf.Fd flags 0 1 0 Overlapped.zero)) = 0 →
          ProcResult.lastErr (answer (Request.LockFileEx lf.Fd flags 0 1 0 Overlapped.zero))
              = w.ERROR_IO_PENDING ∨
            ProcResult.lastErr (answer (Request.LockFileEx lf.Fd flags 0 1 0 Overlapped.zero))
              = 33 →
          p.result answer = Outcome.returned (some LOCK_CONFLICT))) := by
  refine ⟨?_, ?_, ?_⟩
  · intro hm p hp
    have key : ∀ ex, ∃ how, (Unix.lock c lf ex).requests answer = [Request.Flock lf.Fd how] ∧
        (answer (Request.Flock lf.Fd how) = some (SysError.errno c.EWOULDBLOCK) →
          (Unix.lock c lf ex).result answer = Outcome.returned (some LOCK_CONFLICT)) := by
      intro ex
      refine ⟨_, unix_lock_requests_flock c lf ex answer hm, fun ha => ?_⟩
      refine unix_lock_conflict c w lf ex answer (Request.Flock lf.Fd
        (if lf.blocking then (if ex then c.LOCK_EX else c.LOCK_SH)
          else (if ex then c.LOCK_EX else c.LOCK_SH) ||| c.LOCK_NB))
        (SysError.errno c.EWOULDBLOCK) ?_ ?_ ?_
      · rw [unix_lock_requests_flock c lf ex answer hm]
        exact List.mem_singleton.2 rfl
      · simp only [status, ha]
      · exact rfl
    simp only [List.mem_cons, List.mem_singleton, List.not_mem_nil, or_false] at hp
    rcases hp with rfl | rfl
    · exact key false
    · exact key true
  · intro hm p hp
    have key : ∀ ex, ∃ cmd lk,
        (Unix.lock c lf ex).requests answer = [Request.FcntlFlock lf.Fd cmd lk] ∧
        (answer (Request.FcntlFlock lf.Fd cmd lk) = some (SysError.errno c.EAGAIN) ∨
            answer (Request.FcntlFlock lf.Fd cmd lk) = some (SysError.errno c.EACCES) →
          (Unix.lock c lf ex).result answer = Outcome.returned (some LOCK_CONFLICT)) := by
      intro ex
      refine ⟨_, _, unix_lock_requests_fcntl c lf ex answer hm, fun ha => ?_⟩
      rcases ha with ha | ha
      · refine unix_lock_conflict c w lf ex answer
          (Request.FcntlFlock lf.Fd (if lf.blocking then c.F_SETLKW else c.F_SETLK)
          { Typ := if ex then c.F_WRLCK else c.F_RDLCK, Whence := c.SeekStart,
            Start := 0, Len := 0 })
          (SysError.errno c.EAGAIN) ?_ ?_ ?_
        · rw [unix_lock_requests_fcntl c lf ex answer hm]
          exact List.mem_singleton.2 rfl
        · simp only [status, ha]
        · exact Or.inl rfl
      · refine unix_lock_conflict c w lf ex answer
          (Request.FcntlFlock lf.Fd (if lf.blocking then c.F_SETLKW else c.F_SETLK)
          { Typ := if ex then c.F_WRLCK else c.F_RDLCK, Whence := c.SeekStart,
            Start := 0, Len := 0 })
          (SysError.errno c.EACCES) ?_ ?_ ?_
        · rw [unix_lock_requests_fcntl c lf ex answer hm]
          exact List.mem_singleton.2 rfl
        · simp only [status, ha]
        · exact Or.inr rfl
    simp only [List.mem_cons, List.mem_singleton, List.not_mem_nil, or_false] at hp
    rcases hp with rfl | rfl
    · exact key false
    · exact key true
  · intro p hp
    have key : ∀ ex, ∃ flags, (Windows.lock w lf ex).requests answer
          = [Request.LockFileEx lf.Fd flags 0 1 0 Overlapped.zero] ∧
        (ProcResult.r1 (answer (Request.LockFileEx lf.Fd flags 0 1 0 Overlapped.zero)) = 0 →
          ProcResult.lastErr (answer (Request.LockFileEx lf.Fd flags 0 1 0 Overlapped.zero))
              = w.ERROR_IO_PENDING ∨
            ProcResult.lastErr (answer (Request.LockFileEx lf.Fd flags 0 1 0 Overlapped.zero))
              = 33 →
          (Windows.lock w lf ex).result answer = Outcome.returned (some LOCK_CONFLICT)) := by
      intro ex
      refine ⟨_, windows_lock_requests w lf ex answer, fun h0 ha => ?_⟩
      refine windows_lock_conflict c w lf ex answer
        (Request.LockFileEx lf.Fd ((if ex then 2 else 0) + (if lf.blocking then 0 else 1))
          0 1 0 Overlapped.zero)
        (SysError.errno (ProcResult.lastErr (answer (Request.LockFileEx lf.Fd
          ((if ex then 2 else 0) + (if lf.blocking then 0 else 1)) 0 1 0 Overlapped.zero))))
        ?_ ?_ ?_
      · rw [windows_lock_requests w lf ex answer]
        exact List.mem_singleton.2 rfl
      · simp only [status, h0, if_true]
      · simp only [isConflictStatus, SysError.errno.injEq]
        exact ha
    simp only [List.mem_cons, List.mem_singleton, List.not_mem_nil, or_false] at hp
    rcases hp with rfl | rfl
    · exact key false
    · exact key true

/-- C1 at concrete inputs, one for each mechanism, operation and status: a
handle on descriptor 3 whose native locking call is answered `EWOULDBLOCK`
(11) under FLOCK on linux, `EACCES` (13) and `EAGAIN` (11) under FCNTL on
linux, error 33 and `ERROR_IO_PENDING` (997) on Windows. -/
theorem lock_conflict_is_sentinel_witness :
    (Unix.RLock linux sampleHandle).result answerBusy
        = Outcome.returned (some LOCK_CONFLICT) ∧
      (Unix.RWLock linux sampleHandle).result answerBusy
        = Outcome.returned (some LOCK_CONFLICT) ∧
      (Unix.RLock linux (Unix.UseFCNTL sampleHandle)).result answerBusy
        = Outcome.returned (some LOCK_CONFLICT) ∧
      (Unix.RWLock linux (Unix.UseFCNTL sampleHandle)).result answerPending
        = Outcome.returned (some LOCK_CONFLICT) ∧
      (Windows.RLock windows sampleHandle).result answerBusy
        = Outcome.returned (some LOCK_CONFLICT) ∧
      (Windows.RWLock windows sampleHandle).result answerPending
        = Outcome.returned (some LOCK_CONFLICT) := by
  refine ⟨?_, ?_, ?_, ?_, ?_, ?_⟩
  · obtain ⟨_, _, h⟩ := (lock_conflict_is_sentinel linux windows sampleHandle answerBusy).1 rfl
      (Unix.RLock linux sampleHandle) (by simp)
    exact h rfl
  · obtain ⟨_, _, h⟩ := (lock_conflict_is_sentinel linux windows sampleHandle answerBusy).1 rfl
      (Unix.RWLock linux sampleHandle) (by simp)
    exact h rfl
  · obtain ⟨_, _, _, h⟩ := (lock_conflict_is_sentinel linux windows
      (Unix.UseFCNTL sampleHandle) answerBusy).2.1 rfl
      (Unix.RLock linux (Unix.UseFCNTL sampleHandle)) (by simp)
    exact h (Or.inr rfl)
  · obtain ⟨_, _, _, h⟩ := (lock_conflict_is_sentinel linux windows
      (Unix.UseFCNTL sampleHandle) answerPending).2.1 rfl
      (Unix.RWLock linux (Unix.UseFCNTL sampleHandle)) (by simp)
    exact h (Or.inl rfl)
  · obtain ⟨_, _, h⟩ := (lock_conflict_is_sentinel linux windows sampleHandle answerBusy).2.2
      (Windows.RLock windows sampleHandle) (by simp)
    exact h rfl (Or.inr rfl)
  · obtain ⟨_, _, h⟩ := (lock_conflict_is_sentinel linux windows sampleHandle
      answerPending).2.2 (Windows.RWLock windows sampleHandle) (by simp)
    exact h rfl (Or.inl rfl)

/-- C2. `RLock`, `RWLock` and `Unlock` never swallow a native failure.  When
the native call fails with a status other than the lock-held-elsewhere ones
(for the Windows `Unlock`: other than "already unlocked"), a non-nil error
other than `LOCK_CONFLICT` is returned: on POSIX the native error value
itself, on Windows an error whose text is the text of the native errno.  Nil
is returned only after a native call that reported success; the one
exception is the one the claim names, the Windows `Unlock` answered with
"already unlocked". -/
theorem native_failure_never_swallowed (c : SyscallConsts) (w : WinSyscall)
    (lf : LockableFile) (answer : (r : Request) → Response r) :
    (∀ p ∈ [Unix.RLock c lf, Unix.RWLock c lf], ∀ (r : Request) (e : SysError),
        r ∈ p.requests answer → status r (answer r) = NativeStatus.failed e →
        ¬ isConflictStatus c w r e →
        p.result answer = Outcome.returned (some (GoError.sys e)) ∧
          GoError.sys e ≠ LOCK_CONFLICT) ∧
    (∀ (r : Request) (e : SysError),
        r ∈ (Unix.Unlock c lf).requests answer → status r (answer r) = NativeStatus.failed e →
        (Unix.Unlock c lf).result answer = Outcome.returned (some (GoError.sys e)) ∧
          GoError.sys e ≠ LOCK_CONFLICT) ∧
    (∀ p ∈ [Windows.RLock w lf, Windows.RWLock w lf], ∀ (r : Request) (e : SysError),
        r ∈ p.requests answer → status r (answer r) = NativeStatus.failed e →
        ¬ isConflictStatus c w r e →
        ∃ (n : Errno) (err : GoError), e = SysError.errno n ∧
          p.result answer = Outcome.returned (some err) ∧ err ≠ LOCK_CONFLICT ∧
          err.Error w.ErrnoError = w.ErrnoError n) ∧
    (∀ (r : Request) (e : SysError),
        r ∈ (Windows.Unlock w lf).requests answer →
        status r (answer r) = NativeStatus.failed e →
        e ≠ SysError.errno Windows.ALREADY_UNLOCKED_ERRNO →
        ∃ (n : Errno) (err : GoError), e = SysError.errno n ∧
          (Windows.Unlock w lf).result answer = Outcome.returned (some err) ∧
          err ≠ LOCK_CONFLICT ∧ err.Error w.ErrnoError = w.ErrnoError n) ∧
    (∀ p ∈ [Unix.RLock c lf, Unix.RWLock c lf, Unix.Unlock c lf,
          Windows.RLock w lf, Windows.RWLock w lf],
        p.result answer = Outcome.returned none →
        ∃ r, r ∈ p.requests answer ∧ status r (answer r) = NativeStatus.ok) ∧
    ((Windows.Unlock w lf).result answer = Outcome.returned none →
        ∃ r, r ∈ (Windows.Unlock w lf).requests answer ∧
          (status r (answer r) = NativeStatus.ok ∨ status r (answer r)
            = NativeStatus.failed (SysError.errno Windows.ALREADY_UNLOCKED_ERRNO))) := by
  refine ⟨?_, ?_, ?_, ?_, ?_, ?_⟩
  · intro p hp r e hr hfail hconf
    simp only [List.mem_cons, List.mem_singleton, List.not_mem_nil, or_false] at hp
    rcases hp with rfl | rfl
    · exact ⟨unix_lock_propagates c w lf false answer r e hr hfail hconf,
        sys_ne_LOCK_CONFLICT e⟩
    · exact ⟨unix_lock_propagates c w lf true answer r e hr hfail hconf,
        sys_ne_LOCK_CONFLICT e⟩
  · intro r e hr hfail
    exact ⟨unix_Unlock_propagates c lf answer r e hr hfail, sys_ne_LOCK_CONFLICT e⟩
  · intro p hp r e hr hfail hconf
    simp only [List.mem_cons, List.mem_singleton, List.not_mem_nil, or_false] at hp
    rcases hp with rfl | rfl
    · obtain ⟨n, hn, hres⟩ := windows_lock_propagates c w lf false answer r e hr hfail hconf
      exact ⟨n, _, hn, hres, errors_New_ne_LOCK_CONFLICT _, rfl⟩
    · obtain ⟨n, hn, hres⟩ := windows_lock_propagates c w lf true answer r e hr hfail hconf
      exact ⟨n, _, hn, hres, errors_New_ne_LOCK_CONFLICT _, rfl⟩
  · intro r e hr hfail hne
    obtain ⟨n, hn, hres⟩ := windows_Unlock_propagates w lf answer r e hr hfail hne
    exact ⟨n, _, hn, hres, errors_New_ne_LOCK_CONFLICT _, rfl⟩
  · intro p hp hnil
    simp only [List.mem_cons, List.mem_singleton, List.not_mem_nil, or_false] at hp
    rcases hp with rfl | rfl | rfl | rfl | rfl
    · exact unix_lock_nil c lf false answer hnil
    · exact unix_lock_nil c lf true answer hnil
    · exact unix_Unlock_nil c lf answer hnil
    · exact windows_lock_nil w lf false answer hnil
    · exact windows_lock_nil w lf true answer hnil
  · exact windows_Unlock_nil w lf answer

/-- C2 at a concrete input: a handle under FLOCK on linux whose `flock` call
fails with `EBADF` (9); `RWLock` returns that errno. -/
theorem native_failure_never_swallowed_witness :
    (Unix.RWLock linux sampleHandle).result answerBadHandle
        = Outcome.returned (some (GoError.sys (SysError.errno 9))) ∧
      GoError.sys (SysError.errno 9) ≠ LOCK_CONFLICT :=
  (native_failure_never_swallowed linux windows sampleHandle answerBadHandle).1
    (Unix.RWLock linux sampleHandle) (by simp) (Request.Flock 3 6) (SysError.errno 9)
    (by decide) (by rfl) (by decide)

/-- C3. Independently opened handles on one file, non-blocking mode, under
FLOCK and on Windows, run against the kernel lock table.  `RLock` (a shared
request) and `RWLock` (an exclusive request) always return; each returns
`LOCK_CONFLICT` exactly when another open handle holds an incompatible lock
(any lock against an exclusive request, an exclusive lock against a shared
one) and otherwise returns nil and records the lock for the handle.  The
locks of the other handles are never touched by a request; under FLOCK a
refused handle is left without a lock of its own.  `Unlock` returns nil and
removes the lock of its handle only.  Hence shared locks coexist, and an
exclusive request fails as long as another handle holds any lock and
succeeds once the last of them is released.  On Windows the lock taken is
the one on the first byte of the file, so "holds a lock" reads "holds a lock
that covers the first byte". -/
theorem nonblocking_acquire_conflicts_iff (c : SyscallConsts) (w : WinSyscall) (busy : Errno)
    (hc : c.flockWellFormed) (hbusy : busy = 33 ∨ busy = w.ERROR_IO_PENDING) :
    (∀ (s : PosixWorld) (lf : LockableFile) (p : Prog (Option GoError)) (ex : Bool),
      (p, ex) ∈ [(Unix.RLock c lf, false), (Unix.RWLock c lf, true)] →
      lf.unixLockType = FLOCK → lf.blocking = false → lf.Fd ∈ s.opened →
      ∃ o s1, p.run (posixOS c) s = some (Outcome.returned o, s1) ∧
        (o = some LOCK_CONFLICT ↔ ∃ h ∈ s.opened, h ≠ lf.Fd ∧
          ∃ m, s.flocks h = some m ∧ (ex = true ∨ m = Mode.exclusive)) ∧
        (o = some LOCK_CONFLICT → s1 =
          { s with flocks := Function.update s.flocks lf.Fd none }) ∧
        (o ≠ some LOCK_CONFLICT → o = none ∧ s1 =
          { s with flocks := Function.update s.flocks lf.Fd (some (Mode.ofExclusive ex)) })) ∧
    (∀ (s : PosixWorld) (lf : LockableFile),
      lf.unixLockType = FLOCK → lf.Fd ∈ s.opened →
      (Unix.Unlock c lf).run (posixOS c) s = some (Outcome.returned none,
        { s with flocks := Function.update s.flocks lf.Fd none })) ∧
    (∀ (s : WinWorld) (lf : LockableFile) (p : Prog (Option GoError)) (ex : Bool),
      (p, ex) ∈ [(Windows.RLock w lf, false), (Windows.RWLock w lf, true)] →
      lf.blocking = false → lf.Fd ∈ s.opened →
      ∃ o s1, p.run (windowsOS busy) s = some (Outcome.returned o, s1) ∧
        (o = some LOCK_CONFLICT ↔ ∃ h ∈ s.opened, h ≠ lf.Fd ∧
          ∃ k, s.locks h = some k ∧ (k.offset = 0 ∧ 0 < k.length) ∧
            (ex = true ∨ k.mode = Mode.exclusive)) ∧
        (o = some LOCK_CONFLICT → s1 = s) ∧
        (o ≠ some LOCK_CONFLICT → o = none ∧ s1 =
          { s with
            locks := Function.update s.locks lf.Fd
              (some (WinLock.mk (Mode.ofExclusive ex) 0 1)) })) ∧
    (∀ (s : WinWorld) (lf : LockableFile),
      lf.Fd ∈ s.opened → (∀ k, s.locks lf.Fd = some k → k.offset = 0 ∧ k.length = 1) →
      (Windows.Unlock w lf).run (windowsOS busy) s = some (Outcome.returned none,
        { s with locks := Function.update s.locks lf.Fd none })) := by
  refine ⟨?_, ?_, ?_, ?_⟩
  · intro s lf p ex hp hm hb ho
    have hrun : p.run (posixOS c) s = (Unix.lock c lf ex).run (posixOS c) s := by
      simp only [List.mem_cons, List.mem_singleton, Prod.mk.injEq, List.not_mem_nil,
        or_false] at hp
      rcases hp with ⟨rfl, rfl⟩ | ⟨rfl, rfl⟩ <;> rfl
    rw [hrun, unix_flock_run c hc s lf ex hm ho, ← posix_busy_iff, hb]
    cases hbz : s.busy lf.Fd (Mode.ofExclusive ex)
    · exact ⟨none, _, rfl, by simp, by simp, fun _ => ⟨rfl, rfl⟩⟩
    · exact ⟨some LOCK_CONFLICT, _, rfl, by simp, fun _ => rfl, fun h => absurd rfl h⟩
  · intro s lf hm ho
    exact unix_funlock_run c hc s lf hm ho
  · intro s lf p ex hp hb ho
    have hrun : p.run (windowsOS busy) s = (Windows.lock w lf ex).run (windowsOS busy) s := by
      simp only [List.mem_cons, List.mem_singleton, Prod.mk.injEq, List.not_mem_nil,
        or_false] at hp
      rcases hp with ⟨rfl, rfl⟩ | ⟨rfl, rfl⟩ <;> rfl
    rw [hrun, windows_lock_run w busy hbusy s lf ex hb ho, ← windows_busy_iff]
    cases hbz : s.busy lf.Fd (Mode.ofExclusive ex) 0 1
    · exact ⟨none, _, rfl, by simp, by simp, fun _ => ⟨rfl, rfl⟩⟩
    · exact ⟨some LOCK_CONFLICT, s, rfl, by simp, fun _ => rfl, fun h => absurd rfl h⟩
  · intro s lf ho hk
    exact windows_unlock_run w busy s lf ho hk

/-- C3 at a concrete input: descriptors 3 and 4 hold shared locks and the
non-blocking descriptor 5 asks for an exclusive lock with `RWLock` under
FLOCK on linux. -/
theorem nonblocking_acquire_conflicts_iff_witness :
    ∃ o s1, (Unix.RWLock linux (DisableBlocking (Unix.New { fd := 5, name := "/tmp/a" }))).run
        (posixOS linux) twoReaders = some (Outcome.returned o, s1) ∧
      (o = some LOCK_CONFLICT ↔ ∃ h ∈ twoReaders.opened,
        h ≠ (DisableBlocking (Unix.New { fd := 5, name := "/tmp/a" })).Fd ∧
        ∃ m, twoReaders.flocks h = some m ∧ (true = true ∨ m = Mode.exclusive)) ∧
      (o = some LOCK_CONFLICT → s1 =
        { twoReaders with
          flocks := Function.update twoReaders.flocks
            (DisableBlocking (Unix.New { fd := 5, name := "/tmp/a" })).Fd none }) ∧
      (o ≠ some LOCK_CONFLICT → o = none ∧ s1 =
        { twoReaders with
          flocks := Function.update twoReaders.flocks
            (DisableBlocking (Unix.New { fd := 5, name := "/tmp/a" })).Fd
            (some (Mode.ofExclusive true)) }) :=
  (nonblocking_acquire_conflicts_iff linux windows 33 (by decide) (Or.inl rfl)).1 twoReaders
    (DisableBlocking (Unix.New { fd := 5, name := "/tmp/a" }))
    (Unix.RWLock linux (DisableBlocking (Unix.New { fd := 5, name := "/tmp/a" }))) true
    (by simp) rfl rfl
    (by simp [twoReaders, LockableFile.Fd, DisableBlocking, Unix.New, Unix.UseFLOCK])

/-- C4. `Unlock` on an open handle that holds no lock returns nil under
every mechanism.  Run against the kernel: under FLOCK and under FCNTL the
native unlock succeeds whatever the handle holds, so `Unlock` returns nil
(and the locks of the other descriptors are untouched); on Windows the
native call answers "already unlocked" (158) and `Unlock` returns nil,
leaving the kernel as it was.  On the code alone: whenever the native
`UnlockFileEx` fails with status 158, `Unlock` returns nil. -/
theorem unlock_without_lock_is_nil (c : SyscallConsts) (w : WinSyscall) (busy : Errno)
    (hc : c.flockWellFormed) (hs : c.SeekStart = 0) :
    (∀ (s : PosixWorld) (lf : LockableFile),
      lf.Fd ∈ s.opened → lf.unixLockType = FLOCK → s.flocks lf.Fd = none →
      (Unix.Unlock c lf).run (posixOS c) s = some (Outcome.returned none, s)) ∧
    (∀ (s : PosixWorld) (lf : LockableFile),
      lf.Fd ∈ s.opened → lf.unixLockType = FCNTL → s.record = none →
      (Unix.Unlock c lf).run (posixOS c) s = some (Outcome.returned none, s)) ∧
    (∀ (s : WinWorld) (lf : LockableFile),
      lf.Fd ∈ s.opened → s.locks lf.Fd = none →
      (windowsOS busy).handle (Request.UnlockFileEx lf.Fd 0 1 0 Overlapped.zero) s =
          some ({ r1 := 0, r2 := 0, lastErr := Windows.ALREADY_UNLOCKED_ERRNO }, s) ∧
        (Windows.Unlock w lf).run (windowsOS busy) s = some (Outcome.returned none, s)) ∧
    (∀ (lf : LockableFile) (answer : (r : Request) → Response r) (r : Request),
      r ∈ (Windows.Unlock w lf).requests answer →
      status r (answer r)
        = NativeStatus.failed (SysError.errno Windows.ALREADY_UNLOCKED_ERRNO) →
      (Windows.Unlock w lf).result answer = Outcome.returned none) := by
  refine ⟨?_, ?_, ?_, ?_⟩
  · intro s lf ho hm hn
    rw [unix_funlock_run c hc s lf hm ho]
    have : Function.update s.flocks lf.Fd none = s.flocks := by
      rw [← hn]; exact Function.update_eq_self _ _
    rw [this]
  · intro s lf ho hm hn
    rw [unix_fcntl_unlock_run c hs s lf hm ho, ← hn]
  · intro s lf ho hn
    refine ⟨?_, ?_⟩
    · simp [windowsOS, winUnlockFileEx, ho, hn, Windows.ALREADY_UNLOCKED_ERRNO]
    · rw [windows_unlock_run w busy s lf ho (by intro k hk; rw [hn] at hk; cases hk)]
      have : Function.update s.locks lf.Fd none = s.locks := by
        rw [← hn]; exact Function.update_eq_self _ _
      rw [this]
  · intro lf answer r hr hst
    exact windows_unlock_already w lf answer r hr hst

/-- C4 at a concrete input: descriptor 5, opened on a file that descriptors 3
and 4 have locked, holds no lock itself; `Unlock` under FLOCK on linux
returns nil. -/
theorem unlock_without_lock_is_nil_witness :
    (Unix.Unlock linux (Unix.New { fd := 5, name := "/tmp/a" })).run (posixOS linux) twoReaders
      = some (Outcome.returned none, twoReaders) :=
  (unlock_without_lock_is_nil linux windows 33
    (by decide) rfl).1 twoReaders
    (Unix.New { fd := 5, name := "/tmp/a" })
    (by simp [twoReaders, LockableFile.Fd, Unix.New, Unix.UseFLOCK]) rfl
    (by simp [twoReaders, LockableFile.Fd, Unix.New, Unix.UseFLOCK])

/-- C5. `UnlockAndClose` is `Unlock` followed by `Close`, for the `Unlock` of
either driver.  When `Unlock` returns an error, exactly that error is
returned and no `Close` call is issued, so the handle is as open as before.
When `Unlock` returns nil, one `Close` call on the handle follows the calls
of `Unlock` and its result is returned.  Run against the operating system: a
locked open handle under FLOCK is unlocked and closed with result nil, and
after any `UnlockAndClose` that returned nil the handle is no longer open
and a further `Close` on it fails. -/
theorem unlockAndClose_is_unlock_then_close (c : SyscallConsts) (w : WinSyscall)
    (busy : Errno) (lf : LockableFile) :
    (∀ U ∈ [Unix.Unlock c, Windows.Unlock w], ∀ (answer : (r : Request) → Response r),
      (∀ e, (U lf).result answer = Outcome.returned (some e) →
        (UnlockAndClose U lf).result answer = Outcome.returned (some e) ∧
        (UnlockAndClose U lf).requests answer = (U lf).requests answer ∧
        ∀ fd, Request.Close fd ∉ (UnlockAndClose U lf).requests answer) ∧
      ((U lf).result answer = Outcome.returned none →
        (UnlockAndClose U lf).result answer
          = Outcome.returned (Option.map GoError.sys (answer (Request.Close lf.Fd))) ∧
        (UnlockAndClose U lf).requests answer
          = (U lf).requests answer ++ [Request.Close lf.Fd] ∧
        ∀ fd, Request.Close fd ∉ (U lf).requests answer)) ∧
    (∀ (s s1 : PosixWorld) (e : GoError),
      (Unix.Unlock c lf).run (posixOS c) s = some (Outcome.returned (some e), s1) →
      (UnlockAndClose (Unix.Unlock c) lf).run (posixOS c) s
          = some (Outcome.returned (some e), s1) ∧ s1.opened = s.opened) ∧
    (∀ (s : PosixWorld), c.flockWellFormed → lf.unixLockType = FLOCK → lf.Fd ∈ s.opened →
      ∃ s1, (UnlockAndClose (Unix.Unlock c) lf).run (posixOS c) s
        = some (Outcome.returned none, s1)) ∧
    (∀ (s s1 : PosixWorld),
      (UnlockAndClose (Unix.Unlock c) lf).run (posixOS c) s = some (Outcome.returned none, s1) →
      lf.Fd ∉ s1.opened ∧
        ∃ e, (posixOS c).handle (Request.Close lf.Fd) s1 = some (some e, s1)) ∧
    (∀ (s s1 : WinWorld) (e : GoError),
      (Windows.Unlock w lf).run (windowsOS busy) s = some (Outcome.returned (some e), s1) →
      (UnlockAndClose (Windows.Unlock w) lf).run (windowsOS busy) s
          = some (Outcome.returned (some e), s1) ∧ s1.opened = s.opened) ∧
    (∀ (s s1 : WinWorld),
      (UnlockAndClose (Windows.Unlock w) lf).run (windowsOS busy) s
        = some (Outcome.returned none, s1) →
      lf.Fd ∉ s1.opened ∧
        ∃ e, (windowsOS busy).handle (Request.Close lf.Fd) s1 = some (some e, s1)) := by
  refine ⟨?_, ?_, ?_, ?_, ?_, ?_⟩
  · intro U hU answer
    have hnc : ∀ fd, Request.Close fd ∉ (U lf).requests answer := by
      intro fd
      simp only [List.mem_cons, List.mem_singleton, List.not_mem_nil, or_false] at hU
      rcases hU with rfl | rfl
      · exact unix_Unlock_no_close c lf answer fd
      · exact windows_Unlock_no_close w lf answer fd
    refine ⟨?_, ?_⟩
    · intro e he
      obtain ⟨h1, h2⟩ := UnlockAndClose_of_error U lf answer e he
      exact ⟨h1, h2, fun fd => by rw [h2]; exact hnc fd⟩
    · intro hn
      obtain ⟨h1, h2⟩ := UnlockAndClose_of_nil U lf answer hn
      exact ⟨h1, h2, hnc⟩
  · intro s s1 e h
    refine ⟨?_, unix_Unlock_opened c lf s s1 _ h⟩
    unfold UnlockAndClose
    rw [Prog.run_bind_of_returned _ _ _ _ _ _ h]
    simp [Prog.run]
  · intro s hc hm ho
    unfold UnlockAndClose
    rw [Prog.run_bind_of_returned _ _ _ _ _ _ (unix_funlock_run c hc s lf hm ho)]
    simp [Prog.run, posixOS, posixClose, ho]
  · intro s s1 h
    exact unix_closed_after c lf s s1 h
  · intro s s1 e h
    refine ⟨?_, windows_Unlock_opened w busy lf s s1 _ h⟩
    unfold UnlockAndClose
    rw [Prog.run_bind_of_returned _ _ _ _ _ _ h]
    simp [Prog.run]
  · intro s s1 h
    exact windows_closed_after w busy lf s s1 h

/-- C5 at a concrete input (the scenario of `TestClose`): descriptor 3 holds
an exclusive lock under FLOCK on linux; `UnlockAndClose` returns nil, after
which descriptor 3 is closed and closing it again fails. -/
theorem unlockAndClose_is_unlock_then_close_witness :
    (UnlockAndClose (Unix.Unlock linux) (Unix.New { fd := 3, name := "/tmp/a" })).run
        (posixOS linux) oneWriter
      = some (Outcome.returned none,
          { opened := [4, 5],
            flocks := Function.update (Function.update oneWriter.flocks 3 none) 3 none,
            record := none, foreign := [] }) ∧
    (3 ∉ [4, 5] ∧ ∃ e, (posixOS linux).handle (Request.Close 3)
        { opened := [4, 5],
          flocks := Function.update (Function.update oneWriter.flocks 3 none) 3 none,
          record := none, foreign := [] }
      = some (some e,
        { opened := [4, 5],
          flocks := Function.update (Function.update oneWriter.flocks 3 none) 3 none,
          record := none, foreign := [] })) :=
  ⟨rfl, (unlockAndClose_is_unlock_then_close linux windows 33
    (Unix.New { fd := 3, name := "/tmp/a" })).2.2.2.1 oneWriter _ rfl⟩

/-- C6. Two independently opened handles `A` and `B` on one file, `B` in
blocking mode, under FLOCK and on Windows, run against the kernel.  In every
state in which `A` holds the exclusive lock, the `RWLock` of `B` does not
return: the caller is suspended.  When no other handle holds a lock, the
`Unlock` of `A` returns nil and in the state it leaves the `RWLock` of `B`
returns nil.  For the two goroutines of `TestBlockingLockAndUnlock` (the
first holds the lock through `A`, writes and unlocks; the second locks
through `B`, writes and unlocks) and under every schedule: the steps that
took place are an initial part of the one order "first writes, `Unlock` of
`A` returns nil, `RWLock` of `B` returns nil, second writes, `Unlock` of `B`
returns nil", and once the second goroutine has finished the file holds the
first text followed by the second; the schedule that runs the first
goroutine and then the second reaches that end. -/
theorem blocking_exclusive_waits_for_release (c : SyscallConsts) (w : WinSyscall)
    (busy : Errno) (hc : c.flockWellFormed) (A B : LockableFile) (hAB : A.Fd ≠ B.Fd)
    (hB : B.blocking = true) :
    (∀ (s : PosixWorld), A.unixLockType = FLOCK → B.unixLockType = FLOCK →
      A.Fd ∈ s.opened → B.Fd ∈ s.opened → s.flocks A.Fd = some Mode.exclusive →
      (Unix.RWLock c B).run (posixOS c) s = none ∧
      ((∀ h ∈ s.opened, h ≠ A.Fd → s.flocks h = none) →
        (∃ s1 s2, (Unix.Unlock c A).run (posixOS c) s = some (Outcome.returned none, s1) ∧
          (Unix.RWLock c B).run (posixOS c) s1 = some (Outcome.returned none, s2)) ∧
        (∀ (content text1 text2 : String) (sched : List Bool),
          (Config.schedule (posixOS c)
            (criticalSections (Unix.RWLock c) (Unix.Unlock c) A B s content text1 text2)
            sched).trace <+: criticalTrace text1 text2 ∧
          ((Config.schedule (posixOS c)
            (criticalSections (Unix.RWLock c) (Unix.Unlock c) A B s content text1 text2)
            sched).second = [] →
            (Config.schedule (posixOS c)
              (criticalSections (Unix.RWLock c) (Unix.Unlock c) A B s content text1 text2)
              sched).content = content ++ text1 ++ text2)) ∧
        (∀ (content text1 text2 : String),
          (Config.schedule (posixOS c)
            (criticalSections (Unix.RWLock c) (Unix.Unlock c) A B s content text1 text2)
            [false, false, true, true, true]).trace = criticalTrace text1 text2 ∧
          (Config.schedule (posixOS c)
            (criticalSections (Unix.RWLock c) (Unix.Unlock c) A B s content text1 text2)
            [false, false, true, true, true]).content = content ++ text1 ++ text2))) ∧
    (∀ (s : WinWorld), A.Fd ∈ s.opened → B.Fd ∈ s.opened →
      s.locks A.Fd = some (WinLock.mk Mode.exclusive 0 1) →
      (Windows.RWLock w B).run (windowsOS busy) s = none ∧
      ((∀ h ∈ s.opened, h ≠ A.Fd → s.locks h = none) →
        (∃ s1 s2, (Windows.Unlock w A).run (windowsOS busy) s
            = some (Outcome.returned none, s1) ∧
          (Windows.RWLock w B).run (windowsOS busy) s1 = some (Outcome.returned none, s2)) ∧
        (∀ (content text1 text2 : String) (sched : List Bool),
          (Config.schedule (windowsOS busy)
            (criticalSections (Windows.RWLock w) (Windows.Unlock w) A B s content text1 text2)
            sched).trace <+: criticalTrace text1 text2 ∧
          ((Config.schedule (windowsOS busy)
            (criticalSections (Windows.RWLock w) (Windows.Unlock w) A B s content text1 text2)
            sched).second = [] →
            (Config.schedule (windowsOS busy)
              (criticalSections (Windows.RWLock w) (Windows.Unlock w) A B s content text1
                text2)
              sched).content = content ++ text1 ++ text2)) ∧
        (∀ (content text1 text2 : String),
          (Config.schedule (windowsOS busy)
            (criticalSections (Windows.RWLock w) (Windows.Unlock w) A B s content text1 text2)
            [false, false, true, true, true]).trace = criticalTrace text1 text2 ∧
          (Config.schedule (windowsOS busy)
            (criticalSections (Windows.RWLock w) (Windows.Unlock w) A B s content text1 text2)
            [false, false, true, true, true]).content = content ++ text1 ++ text2))) := by
  refine ⟨?_, ?_⟩
  · intro s hmA hmB hoA hoB hA
    obtain ⟨h0, h1, h23⟩ := unix_critical_runs c hc A B hAB hB hmA hmB s hoA hoB hA
    refine ⟨h0, fun hnone => ?_⟩
    obtain ⟨h2, h3⟩ := h23 hnone
    refine ⟨⟨_, _, h1, h2⟩, ?_, ?_⟩
    · intro content text1 text2 sched
      obtain ⟨m, hm⟩ := criticalStage_schedule (posixOS c) (Unix.RWLock c) (Unix.Unlock c) A B
        _ _ _ _ content text1 text2 h0 h1 h2 h3 sched 0
      have hm2 : Config.schedule (posixOS c)
          (criticalSections (Unix.RWLock c) (Unix.Unlock c) A B s content text1 text2) sched
          = _ := hm
      rw [hm2]
      exact criticalStage_facts _ _ _ _ _ _ _ _ _ _ _ m
    · intro content text1 text2
      rw [criticalStage_finish (posixOS c) (Unix.RWLock c) (Unix.Unlock c) A B _ _ _ _
        content text1 text2 h1 h2 h3]
      exact ⟨rfl, rfl⟩
  · intro s hoA hoB hA
    obtain ⟨h0, h1, h23⟩ := windows_critical_runs w busy A B hAB hB s hoA hoB hA
    refine ⟨h0, fun hnone => ?_⟩
    obtain ⟨h2, h3⟩ := h23 hnone
    refine ⟨⟨_, _, h1, h2⟩, ?_, ?_⟩
    · intro content text1 text2 sched
      obtain ⟨m, hm⟩ := criticalStage_schedule (windowsOS busy) (Windows.RWLock w)
        (Windows.Unlock w) A B _ _ _ _ content text1 text2 h0 h1 h2 h3 sched 0
      have hm2 : Config.schedule (windowsOS busy)
          (criticalSections (Windows.RWLock w) (Windows.Unlock w) A B s content text1 text2)
          sched = _ := hm
      rw [hm2]
      exact criticalStage_facts _ _ _ _ _ _ _ _ _ _ _ m
    · intro content text1 text2
      rw [criticalStage_finish (windowsOS busy) (Windows.RWLock w) (Windows.Unlock w) A B
        _ _ _ _ content text1 text2 h1 h2 h3]
      exact ⟨rfl, rfl⟩

/-- C6 at a concrete input (the scenario of `TestBlockingLockAndUnlock`):
descriptor 3 holds the exclusive lock under FLOCK on linux; the blocking
`RWLock` of descriptor 4 is suspended, and when the goroutines have run the
file holds the two texts in the order of the critical sections. -/
theorem blocking_exclusive_waits_for_release_witness :
    (Unix.RWLock linux (Unix.New { fd := 4, name := "/tmp/a" })).run (posixOS linux) oneWriter
        = none ∧
      (Config.schedule (posixOS linux)
        (criticalSections (Unix.RWLock linux) (Unix.Unlock linux)
          (Unix.New { fd := 3, name := "/tmp/a" }) (Unix.New { fd := 4, name := "/tmp/a" })
          oneWriter "" "thread1 " "thread2")
        [false, false, true, true, true]).content = "" ++ "thread1 " ++ "thread2" :=
  ⟨((blocking_exclusive_waits_for_release linux windows 33 (by decide)
      (Unix.New { fd := 3, name := "/tmp/a" }) (Unix.New { fd := 4, name := "/tmp/a" })
      (by decide) rfl).1 oneWriter rfl rfl (by decide) (by decide) rfl).1,
   ((((blocking_exclusive_waits_for_release linux windows 33 (by decide)
      (Unix.New { fd := 3, name := "/tmp/a" }) (Unix.New { fd := 4, name := "/tmp/a" })
      (by decide) rfl).1 oneWriter rfl rfl (by decide) (by decide) rfl).2
      (by
        intro h _ hne
        have h3 : h ≠ 3 := hne
        simp [oneWriter, h3])).2.2 "" "thread1 " "thread2").2⟩

/-- C7, as stated, fails: for a non-blocking exclusive request on handle 3
the Windows `lock` passes the range of offset 0 and length 1 to
`LockFileEx`, not the range of maximum length. -/
theorem windows_region_not_maximal :
    (Windows.lock windows sampleHandle true).requests answerBusy
        = [Request.LockFileEx 3 3 0 1 0 Overlapped.zero] ∧
      (Request.LockFileEx 3 3 0 1 0 Overlapped.zero).region = some (0, 1) ∧
      (Request.LockFileEx 3 3 0 1 0 Overlapped.zero).region ≠ some (0, maxRegionLength) := by
  refine ⟨rfl, rfl, ?_⟩
  decide

/-- C7, amended. On Windows, for every handle and every (exclusive, blocking)
combination, `lock` issues one `LockFileEx` call whose range starts at
offset 0 and is one byte long (length words 1 and 0, zeroed overlapped
record): the first byte of the file; `Unlock` issues one `UnlockFileEx` call
on that same range. -/
theorem windows_region_is_first_byte (w : WinSyscall) (lf : LockableFile) (ex : Bool)
    (answer : (r : Request) → Response r) :
    (∃ flags, (Windows.lock w lf ex).requests answer
      = [Request.LockFileEx lf.Fd flags 0 1 0 Overlapped.zero]) ∧
    (Windows.Unlock w lf).requests answer
      = [Request.UnlockFileEx lf.Fd 0 1 0 Overlapped.zero] ∧
    ((Windows.lock w lf ex).requests answer).map Request.region = [some (0, 1)] ∧
    ((Windows.Unlock w lf).requests answer).map Request.region = [some (0, 1)] := by
  refine ⟨⟨_, windows_lock_requests w lf ex answer⟩, windows_Unlock_requests w lf answer, ?_, ?_⟩
  · rw [windows_lock_requests w lf ex answer]; rfl
  · rw [windows_Unlock_requests w lf answer]; rfl

/-- C8. On POSIX `lock` issues exactly one native request.  Under FLOCK it is
`flock` with operation `LOCK_EX` if exclusive else `LOCK_SH`, OR-ed with
`LOCK_NB` when the handle is non-blocking and left as it is when blocking.
Under FCNTL it is `fcntl` with the whole-file descriptor (whence = start,
offset 0, length 0) of type `F_WRLCK` if exclusive else `F_RDLCK`, sent with
`F_SETLKW` if blocking and `F_SETLK` otherwise. -/
theorem posix_native_request (c : SyscallConsts) (lf : LockableFile) (ex : Bool)
    (answer : (r : Request) → Response r) :
    (lf.unixLockType = FLOCK →
      (Unix.lock c lf ex).requests answer =
        [Request.Flock lf.Fd (if lf.blocking then (if ex then c.LOCK_EX else c.LOCK_SH)
          else (if ex then c.LOCK_EX else c.LOCK_SH) ||| c.LOCK_NB)]) ∧
    (lf.unixLockType = FCNTL →
      (Unix.lock c lf ex).requests answer =
        [Request.FcntlFlock lf.Fd (if lf.blocking then c.F_SETLKW else c.F_SETLK)
          { Typ := if ex then c.F_WRLCK else c.F_RDLCK, Whence := c.SeekStart,
            Start := 0, Len := 0 }]) :=
  ⟨unix_lock_requests_flock c lf ex answer, unix_lock_requests_fcntl c lf ex answer⟩

/-- C8 at a concrete input: a non-blocking handle on descriptor 3 under FLOCK
on linux asks for `LOCK_EX | LOCK_NB` = 6. -/
theorem posix_native_request_witness :
    (Unix.lock linux sampleHandle true).requests answerBusy = [Request.Flock 3 6] :=
  (posix_native_request linux sampleHandle true answerBusy).1 rfl

/-- C9. On Windows the flags word passed to `LockFileEx` has the
exclusive-lock bit (0x2) set exactly when the request is exclusive, the
fail-immediately bit (0x1) set exactly when the handle is non-blocking, and
no other bit set; `RLock` is the request with `exclusive = false` and
`RWLock` the one with `exclusive = true`. -/
theorem windows_flags_word (w : WinSyscall) (lf : LockableFile) (ex : Bool)
    (answer : (r : Request) → Response r) :
    (∃ flags, (Windows.lock w lf ex).requests answer
        = [Request.LockFileEx lf.Fd flags 0 1 0 Overlapped.zero] ∧
      (flags &&& Windows.LOCKFILE_EXCLUSIVE_LOCK = Windows.LOCKFILE_EXCLUSIVE_LOCK
        ↔ ex = true) ∧
      (flags &&& Windows.LOCKFILE_FAIL_IMMEDIATELY = Windows.LOCKFILE_FAIL_IMMEDIATELY
        ↔ lf.blocking = false) ∧
      flags &&& (Windows.LOCKFILE_EXCLUSIVE_LOCK ||| Windows.LOCKFILE_FAIL_IMMEDIATELY)
        = flags) ∧
    Windows.RLock w lf = Windows.lock w lf false ∧
    Windows.RWLock w lf = Windows.lock w lf true := by
  refine ⟨⟨_, windows_lock_requests w lf ex answer, ?_, ?_, ?_⟩, rfl, rfl⟩ <;>
    cases ex <;> cases lf.blocking <;> decide

/-- C10. On POSIX an unrecognized mechanism cannot be reached through the
public surface: a handle made by `New` and configured by any sequence of
`UseFLOCK`, `UseFCNTL`, `EnableBlocking`, `DisableBlocking` has mechanism
FLOCK or FCNTL.  On a handle whose mechanism holds any other raw value,
`RLock`, `RWLock` and `Unlock` end the process through `log.Fatal`: they
issue no native call and return neither nil nor an error. -/
theorem unrecognized_mechanism_fails_fast (c : SyscallConsts) :
    (∀ (file : OsFile) (calls : List PolicyCall),
      (Unix.configure file calls).unixLockType = FLOCK ∨
        (Unix.configure file calls).unixLockType = FCNTL) ∧
    (∀ (lf : LockableFile), lf.unixLockType ≠ FLOCK → lf.unixLockType ≠ FCNTL →
      ∀ p ∈ [Unix.RLock c lf, Unix.RWLock c lf, Unix.Unlock c lf],
        p = Prog.fatal "Unrecognized lock type." ∧
        ∀ (answer : (r : Request) → Response r),
          p.requests answer = [] ∧
          p.result answer = Outcome.exited "Unrecognized lock type.") := by
  refine ⟨?_, ?_⟩
  · intro file calls
    unfold Unix.configure
    have key : ∀ (l : List PolicyCall) (lf : LockableFile),
        (lf.unixLockType = FLOCK ∨ lf.unixLockType = FCNTL) →
        ((l.foldl Unix.applyPolicy lf).unixLockType = FLOCK ∨
          (l.foldl Unix.applyPolicy lf).unixLockType = FCNTL) := by
      intro l
      induction l with
      | nil => intro lf h; exact h
      | cons a t ih =>
        intro lf h
        simp only [List.foldl_cons]
        apply ih
        cases a
        · exact Or.inl rfl
        · exact Or.inr rfl
        · exact h
        · exact h
    exact key calls _ (Or.inl rfl)
  · intro lf h1 h2 p hp
    have hp2 : p = Prog.fatal "Unrecognized lock type." := by
      simp only [List.mem_cons, List.mem_singleton, List.not_mem_nil, or_false] at hp
      rcases hp with rfl | rfl | rfl
      · simp [Unix.RLock, Unix.lock, h1, h2]
      · simp [Unix.RWLock, Unix.lock, h1, h2]
      · simp [Unix.Unlock, h1, h2]
    subst hp2
    exact ⟨rfl, fun _ => ⟨rfl, rfl⟩⟩

/-- C10 at a concrete input: on a handle whose mechanism field holds 7,
`RWLock` ends the process without a native call. -/
theorem unrecognized_mechanism_fails_fast_witness :
    Unix.RWLock linux rawHandle = Prog.fatal "Unrecognized lock type." ∧
      ∀ (answer : (r : Request) → Response r),
        (Unix.RWLock linux rawHandle).requests answer = [] ∧
        (Unix.RWLock linux rawHandle).result answer
          = Outcome.exited "Unrecognized lock type." :=
  (unrecognized_mechanism_fails_fast linux).2 rawHandle (by decide) (by decide)
    (Unix.RWLock linux rawHandle) (by simp)

/-- C11. For every file, `New` wraps the file itself (same handle, same
`Name`) with blocking = true and mechanism = FLOCK, on POSIX and on
Windows.  Each policy setter is a total function on the handle, with no
native call and no error result, that changes only its own field:
`EnableBlocking` and `DisableBlocking` set `blocking` to true and false and
keep the mechanism and the wrapped file; on POSIX `UseFLOCK` and `UseFCNTL`
set the mechanism and keep `blocking` and the wrapped file; on Windows
`UseFLOCK` and `UseFCNTL` change nothing. -/
theorem new_and_setters_frame (file : OsFile) (lf : LockableFile) :
    (Unix.New file = { File := file, blocking := true, unixLockType := FLOCK } ∧
      (Unix.New file).Name = file.name ∧ (Unix.New file).Fd = file.fd) ∧
    (Windows.New file = { File := file, blocking := true, unixLockType := FLOCK } ∧
      (Windows.New file).Name = file.name ∧ (Windows.New file).Fd = file.fd) ∧
    EnableBlocking lf
      = { File := lf.File, blocking := true, unixLockType := lf.unixLockType } ∧
    DisableBlocking lf
      = { File := lf.File, blocking := false, unixLockType := lf.unixLockType } ∧
    Unix.UseFLOCK lf = { File := lf.File, blocking := lf.blocking, unixLockType := FLOCK } ∧
    Unix.UseFCNTL lf = { File := lf.File, blocking := lf.blocking, unixLockType := FCNTL } ∧
    Windows.UseFLOCK lf = lf ∧
    Windows.UseFCNTL lf = lf :=
  ⟨⟨rfl, rfl, rfl⟩, ⟨rfl, rfl, rfl⟩, rfl, rfl, rfl, rfl, rfl, rfl⟩

end LFile
